import Mathlib

/-!
# DemShape: ray / DEM intersection

A shallow embedding of `isis/src/base/objs/DemShape/DemShape.cpp`.

Conventions of the embedding.

* C++ `double` values are rational numbers: arithmetic is exact.  The standard
  library functions `sqrt` and `atan2`, the constant `RAD2DEG`, the NAIF
  routine `surfpt_c`, the DEM projection / portal / interpolator and the
  sensor's `resolution()` are not part of `DemShape.cpp`; they are the fields
  of `Env`.
* The NAIF vector routines `vsub_c`, `ucrss_c`, `unorm_c`, `vdot_c`,
  `vminus_c`, `vhat_c`, `vnorm_c` and `surfnm_c` are embedded as NAIF
  documents them, on top of the environment's `sqrt`.
* A special (no-data, null) pixel or `Distance` is `none`.
* The object's member variables read or written by the embedded methods are
  the fields of `ShapeState`.
* `exit(1)` ends the process: a call has an `Outcome`, either `returned b` or
  `exited code`.
* Exceptions thrown by the external collaborators and by
  `NaifStatus::CheckErrors` are not modelled in `intersectSurface`.
* `Run.log` is a ghost call log.  It records, in program order, the calls made
  to `surfpt_c`, to `demError` and to `localRadius`, so that statements about
  how often a stage runs can be made.  It never influences the computation.
-/

namespace DemShape

/-- A point or direction in body-fixed coordinates (`double[3]`). -/
structure Vec3 where
  x : ℚ
  y : ℚ
  z : ℚ
deriving DecidableEq

/-- External capabilities used by `DemShape.cpp`. -/
structure Env where
  /-- Function `sqrt` of the C library. -/
  sqrt : ℚ → ℚ
  /-- Function `atan2 y x` of the C library, in radians. -/
  atan2 : ℚ → ℚ → ℚ
  /-- Constant `RAD2DEG`. -/
  RAD2DEG : ℚ
  /-- NAIF `surfpt_c positn u a b c`: the near intersection of the ray with
  the ellipsoid, `none` when `found` is false. -/
  surfpt : Vec3 → Vec3 → ℚ → ℚ → ℚ → Option Vec3
  /-- Projection of (lat, lon) in degrees into the DEM cube, portal read and
  bilinear interpolation: the interpolated value in meters, `none` when
  special. -/
  demInterpolate : ℚ → ℚ → Option ℚ
  /-- Sensor capability `resolution()` in m/pixel, as a function of the surface
  intersection point held by the shape model. -/
  resolution : Vec3 → ℚ
  /-- Number of samples of the DEM cube: `m_demCube->sampleCount()`. -/
  sampleCount : Int
  /-- Number of lines of the DEM cube: `m_demCube->lineCount()`. -/
  lineCount : Int
  /-- One-pixel read of the DEM cube at (sample, line), band 1, in meters;
  `none` when special. -/
  readPixel : Int → Int → Option ℚ
  /-- Radii `targetRadii()` of the target ellipsoid in km. -/
  targetRadii : ℚ × ℚ × ℚ

/-- Member variables of the shape model. -/
structure ShapeState where
  /-- The surface intersection point `surfaceIntersection()`; `none` when it
  is not valid. -/
  point : Option Vec3
  /-- Flag `hasIntersection()`. -/
  hasIntersection : Bool
  /-- Member `m_demValueFound`. -/
  demValueFound : Bool
  /-- Member `m_demValue`. -/
  demValue : ℚ
  /-- The stored normal. -/
  normal : Vec3
  /-- Flag `hasNormal()`. -/
  hasNormal : Bool
deriving DecidableEq

/-- An entry of the ghost call log. -/
inductive Call where
  /-- The sphere intersection of line 245 with radius `r`. -/
  | initSurfpt (r : ℚ)
  /-- A call of `demError` with ray parameter `t`. -/
  | demError (t : ℚ)
  /-- The `localRadius` lookup of line 398, in the fixed-point loop. -/
  | fixedLookup (lat lon : ℚ)
  /-- The sphere re-intersection of line 418, in the fixed-point loop. -/
  | fixedSurfpt (r : ℚ)
deriving DecidableEq

/-- How a call ends. -/
inductive Outcome where
  /-- The method returns the value `b` to its caller. -/
  | returned (b : Bool)
  /-- The process is ended by `exit(code)`. -/
  | exited (code : Int)
deriving DecidableEq

/-- The state of the shape model together with the ghost call log. -/
structure Run where
  st : ShapeState
  log : List Call
deriving DecidableEq

/-- Appends an entry to the ghost call log. -/
def Run.record (r : Run) (c : Call) : Run :=
  { r with log := r.log ++ [c] }

/-- Recognises the log entries of `demError` calls. -/
def Call.isDemError : Call → Bool
  | Call.demError _ => true
  | _ => false

/-- Recognises the log entries of fixed-point `localRadius` lookups. -/
def Call.isFixedLookup : Call → Bool
  | Call.fixedLookup _ _ => true
  | _ => false

/-- Recognises the log entries of fixed-point sphere re-intersections. -/
def Call.isFixedSurfpt : Call → Bool
  | Call.fixedSurfpt _ => true
  | _ => false

/-- Method `setHasIntersection(b)`. -/
def Run.setHasIntersection (r : Run) (b : Bool) : Run :=
  { r with st := { r.st with hasIntersection := b } }

/-- The call `surfaceIntersection()->FromNaifArray(p)`. -/
def Run.setPoint (r : Run) (p : Vec3) : Run :=
  { r with st := { r.st with point := some p } }

/-- The member variables that `setHasIntersection` and `FromNaifArray` do not
touch. -/
def ShapeState.rest (s : ShapeState) : Bool × ℚ × Vec3 × Bool :=
  (s.demValueFound, s.demValue, s.normal, s.hasNormal)

/-- Euclidean norm `sqrt(x*x + y*y + z*z)`. -/
def norm3 (env : Env) (v : Vec3) : ℚ :=
  env.sqrt (v.x * v.x + v.y * v.y + v.z * v.z)

/-- The latitude and longitude, in decimal degrees, computed by hand from a
point (lines 160-166 and 372-381). -/
def latLon (env : Env) (p : Vec3) : ℚ × ℚ :=
  let norm2 := p.x * p.x + p.y * p.y
  let latDD := env.atan2 p.z (env.sqrt norm2) * env.RAD2DEG
  let lonDD := env.atan2 p.y p.x * env.RAD2DEG
  (latDD, if lonDD < 0 then lonDD + 360 else lonDD)

/-- Method `DemShape::localRadius`, in km: the interpolated DEM value, read in
meters, as a `Distance`. -/
def localRadius (env : Env) (lat lon : ℚ) : Option ℚ :=
  (env.demInterpolate lat lon).map (fun m => m / 1000)

/-- The values taken by a loop variable of `findDemValue`:
`for (v = spacing; v <= count - spacing; v += spacing)`. -/
def probeAxis (count spacing : Int) : List Int :=
  ((List.range (count.toNat + 1)).map (fun (k : Nat) => spacing * ((k : Int) + 1))).filter
    (fun v => decide (v ≤ count - spacing))

/-- The grid positions (sample, line) read by `findDemValue`, in the order in
which the two nested loops visit them. -/
def probePositions (env : Env) : List (Int × Int) :=
  let sampleSpacing := max (env.sampleCount / 6) 1
  let lineSpacing := max (env.lineCount / 6) 1
  (probeAxis env.sampleCount sampleSpacing).flatMap
    (fun s => (probeAxis env.lineCount lineSpacing).map (fun l => (s, l)))

/-- Method `DemShape::findDemValue`: the returned value in km and the new
state. -/
def findDemValue (env : Env) (st : ShapeState) : ℚ × ShapeState :=
  if st.demValueFound then (st.demValue, st)
  else
    match (probePositions env).findSome? (fun sl => env.readPixel sl.1 sl.2) with
    | some v => (v / 1000, { st with demValue := v / 1000, demValueFound := true })
    | none =>
      let a := env.targetRadii.1
      let b := env.targetRadii.2.1
      let c := env.targetRadii.2.2
      ((a + b + c) / 3, { st with demValue := (a + b + c) / 3, demValueFound := true })

/-- What a call of `demError` leaves behind. -/
structure ErrEval where
  /-- The returned value. -/
  value : ℚ
  /-- The output parameter `success`. -/
  success : Bool
  /-- The output array `intersectionPoint`. -/
  point : Vec3
  /-- The state after the call. -/
  run : Run

/-- The local radius in km at the latitude and longitude of the point `p`:
`localRadius(Latitude(latDD), Longitude(lonDD))` of lines 172 and 398. -/
def radiusAt (env : Env) (p : Vec3) : Option ℚ :=
  localRadius env (latLon env p).1 (latLon env p).2

/-- The position along the ray: `observerPos[i] + t * lookDirection[i]`. -/
def rayPoint (observerPos lookDirection : Vec3) (t : ℚ) : Vec3 :=
  ⟨observerPos.x + t * lookDirection.x,
   observerPos.y + t * lookDirection.y,
   observerPos.z + t * lookDirection.z⟩

/-- Method `DemShape::demError`. -/
def demError (env : Env) (observerPos lookDirection : Vec3) (t : ℚ) (run : Run) : ErrEval :=
  let run := run.record (Call.demError t)
  let intersectionPoint := rayPoint observerPos lookDirection t
  let pointRadiusKm := norm3 env intersectionPoint
  match radiusAt env intersectionPoint with
  | none => ⟨-1, false, intersectionPoint, run.setHasIntersection false⟩
  | some surfaceRadiusKm =>
    ⟨pointRadiusKm - surfaceRadiusKm, true, intersectionPoint,
     (run.setPoint intersectionPoint).setHasIntersection true⟩

/-- The local variables of the secant loop. -/
structure SecantVars where
  t0 : ℚ
  f0 : ℚ
  t1 : ℚ
  f1 : ℚ
  tol : ℚ
  /-- The array `intersectionPoint` last written by `demError`. -/
  point : Vec3
deriving DecidableEq

/-- What the secant loop leaves behind. -/
structure SecantEnd where
  /-- The local variable `converged`. -/
  converged : Bool
  /-- The local variable `tol`. -/
  tol : ℚ
  /-- The state after the loop. -/
  run : Run
deriving DecidableEq

/-- The convergence test at the head of a secant iteration, lines 304-317:
the flag `converged`, the tolerance and the state after it. -/
def secantTest (env : Env) (v : SecantVars) (run : Run) : SecantEnd :=
  if |v.f1| * 1000 < v.tol then
    let run := run.setPoint v.point
    let tol := env.resolution v.point / 100
    if |v.f1| * 1000 < tol then ⟨true, tol, run.setHasIntersection true⟩
    else ⟨false, tol, run⟩
  else ⟨false, v.tol, run⟩

/-- The secant update `t2 = t1 - f1 * (t1 - t0) / (f1 - f0)` of line 327. -/
def secantUpdate (v : SecantVars) : ℚ :=
  v.t1 - v.f1 * (v.t1 - v.t0) / (v.f1 - v.f0)

/-- One iteration of the secant loop, lines 298-338: `Sum.inl s` when the
iteration leaves the loop (`break`), `Sum.inr (v, run)` when it ends with the
updated window. -/
def secantStep (env : Env) (observerPos lookDirection : Vec3) (v : SecantVars) (run : Run) :
    SecantEnd ⊕ (SecantVars × Run) :=
  let c := secantTest env v run
  if c.converged then Sum.inl c
  else if v.f1 = v.f0 ∧ |v.f1| * 1000 ≥ c.tol then Sum.inl ⟨false, c.tol, c.run⟩
  else
    let t2 := secantUpdate v
    let e := demError env observerPos lookDirection t2 c.run
    if e.success then Sum.inr (⟨v.t1, v.f1, t2, e.value, c.tol, e.point⟩, e.run)
    else Sum.inl ⟨false, c.tol, e.run⟩

/-- The secant loop `for (int i = 1; i <= 100; i++)` of lines 297-339, with
`n = 101 - i` iterations left. -/
def secantLoop (env : Env) (observerPos lookDirection : Vec3) :
    Nat → SecantVars → Run → SecantEnd
  | 0, v, run => ⟨false, v.tol, run⟩
  | n + 1, v, run =>
    match secantStep env observerPos lookDirection v run with
    | Sum.inl s => s
    | Sum.inr (v, run) => secantLoop env observerPos lookDirection n v run

/-- The squared distance between two points in square meters:
`(dX*dX + dY*dY + dZ*dZ) * 1000 * 1000` of line 447. -/
def dist2 (cur new : Vec3) : ℚ :=
  let dX := cur.x - new.x
  let dY := cur.y - new.y
  let dZ := cur.z - new.z
  (dX * dX + dY * dY + dZ * dZ) * 1000 * 1000

/-- The fixed-point loop `while (!done)` of lines 357-467 followed by
`return hasIntersection()`, with `k = 101 - it` iterations left; `newPt` is
`newIntersectPt` and `tol2` is always `tol * tol`. -/
def fixedLoop (env : Env) (observerPos lookDirection : Vec3) :
    Nat → Vec3 → ℚ → Run → Outcome × Run
  | 0, _, _, run =>
    let run := run.setHasIntersection false
    (Outcome.returned run.st.hasIntersection, run)
  | k + 1, newPt, tol, run =>
    let run := run.record (Call.fixedLookup (latLon env newPt).1 (latLon env newPt).2)
    match radiusAt env newPt with
    | none => (Outcome.exited 1, run.setHasIntersection false)
    | some r =>
      let run := run.record (Call.fixedSurfpt r)
      match env.surfpt observerPos lookDirection r r r with
      | none => (Outcome.exited 1, run.setHasIntersection false)
      | some p =>
        let run := run.setHasIntersection true
        if dist2 newPt p < tol * tol then
          let run := run.setPoint p
          let tol := env.resolution p / 100
          if dist2 newPt p < tol * tol then
            let run := run.setHasIntersection true
            (Outcome.returned run.st.hasIntersection, run)
          else fixedLoop env observerPos lookDirection k p tol run
        else fixedLoop env observerPos lookDirection k p tol run

/-- The first `k` iterations of the fixed-point loop started at `newPt` with
tolerance `tol` all run to their end (the lookup and the re-intersection
succeed) and none of them passes the acceptance test of lines 452-461. -/
def fixedRejects (env : Env) (observerPos lookDirection : Vec3) :
    Nat → Vec3 → ℚ → Bool
  | 0, _, _ => true
  | k + 1, newPt, tol =>
    match radiusAt env newPt with
    | none => false
    | some r =>
      match env.surfpt observerPos lookDirection r r r with
      | none => false
      | some p =>
        if dist2 newPt p < tol * tol then
          if dist2 newPt p < env.resolution p / 100 * (env.resolution p / 100) then false
          else fixedRejects env observerPos lookDirection k p (env.resolution p / 100)
        else fixedRejects env observerPos lookDirection k p tol

/-- The ray parameter of the projection of `p` onto the ray (lines 268-273). -/
def rayParameter (observerPos lookDirection p : Vec3) : ℚ :=
  ((p.x - observerPos.x) * lookDirection.x +
   (p.y - observerPos.y) * lookDirection.y +
   (p.z - observerPos.z) * lookDirection.z) /
  (lookDirection.x * lookDirection.x +
   lookDirection.y * lookDirection.y +
   lookDirection.z * lookDirection.z)

/-- The radius passed to the first sphere intersection (lines 221-240). -/
def initialRadius (env : Env) (observerPos : Vec3) (st : ShapeState) : ℚ :=
  min (findDemValue env st).1 (norm3 env observerPos - 1 / 10000)

/-- The secant stage, lines 256-339, entered with the sphere intersection
point `newIntersectPt`: `Sum.inl run` when an evaluation of Init fails and
`intersectSurface` returns false with state `run` (lines 283 and 292),
`Sum.inr s` when the secant loop has ended. -/
def secantStage (env : Env) (observerPos lookDirection newIntersectPt : Vec3) (run : Run) :
    Run ⊕ SecantEnd :=
  let run := (run.setPoint newIntersectPt).setHasIntersection true
  let tol := env.resolution newIntersectPt / 100
  let t0 := rayParameter observerPos lookDirection newIntersectPt
  let e0 := demError env observerPos lookDirection t0 run
  if !e0.success then Sum.inl e0.run
  else
    let t1 := t0 + 1 / 10000
    let e1 := demError env observerPos lookDirection t1 e0.run
    if !e1.success then Sum.inl e1.run
    else
      Sum.inr (secantLoop env observerPos lookDirection 100
        ⟨t0, e0.value, t1, e1.value, tol, e1.point⟩ e1.run)

/-- The logged call made a DEM lookup that found no sample. -/
def Call.lookupFails (env : Env) (observerPos lookDirection : Vec3) : Call → Bool
  | Call.demError t => (radiusAt env (rayPoint observerPos lookDirection t)).isNone
  | Call.fixedLookup lat lon => (localRadius env lat lon).isNone
  | _ => false

/-- Method `DemShape::intersectSurface`, called on the state `st`. -/
def intersectSurface (env : Env) (observerPos lookDirection : Vec3) (st : ShapeState) :
    Outcome × Run :=
  let r := initialRadius env observerPos st
  let run : Run := ⟨(findDemValue env st).2, [Call.initSurfpt r]⟩
  match env.surfpt observerPos lookDirection r r r with
  | none => (Outcome.returned false, run)
  | some newIntersectPt =>
    match secantStage env observerPos lookDirection newIntersectPt run with
    | Sum.inl run => (Outcome.returned false, run)
    | Sum.inr s => fixedLoop env observerPos lookDirection 100 newIntersectPt s.tol s.run

/-- Init of the secant stage, lines 256-293: `Sum.inl run` when an evaluation
fails, `Sum.inr (v, run)` with the first window `v` of the secant loop. -/
def secantInit (env : Env) (observerPos lookDirection newIntersectPt : Vec3) (run : Run) :
    Run ⊕ (SecantVars × Run) :=
  let run := (run.setPoint newIntersectPt).setHasIntersection true
  let tol := env.resolution newIntersectPt / 100
  let t0 := rayParameter observerPos lookDirection newIntersectPt
  let e0 := demError env observerPos lookDirection t0 run
  if !e0.success then Sum.inl e0.run
  else
    let t1 := t0 + 1 / 10000
    let e1 := demError env observerPos lookDirection t1 e0.run
    if !e1.success then Sum.inl e1.run
    else Sum.inr (⟨t0, e0.value, t1, e1.value, tol, e1.point⟩, e1.run)

/-- The window and the state on entry of each iteration that the secant loop
executes, in order, with `n` iterations left. -/
def secantTrace (env : Env) (observerPos lookDirection : Vec3) :
    Nat → SecantVars → Run → List (SecantVars × Run)
  | 0, _, _ => []
  | n + 1, v, run =>
    (v, run) ::
      match secantStep env observerPos lookDirection v run with
      | Sum.inl _ => []
      | Sum.inr (v1, run1) => secantTrace env observerPos lookDirection n v1 run1

/-- The window and the state on entry of each iteration of the secant loop
that `intersectSurface` executes after the first sphere intersection
`newIntersectPt`; empty when Init fails. -/
def secantIterations (env : Env) (observerPos lookDirection newIntersectPt : Vec3) (run : Run) :
    List (SecantVars × Run) :=
  match secantInit env observerPos lookDirection newIntersectPt run with
  | Sum.inl _ => []
  | Sum.inr (v, run) => secantTrace env observerPos lookDirection 100 v run

/-- The window of an iteration is consistent: `point` is the ray point at `t1`
and `f1` is the error there. -/
def SecantVars.Consistent (env : Env) (o d : Vec3) (v : SecantVars) : Prop :=
  v.point = rayPoint o d v.t1 ∧
    ∃ R, radiusAt env (rayPoint o d v.t1) = some R ∧ v.f1 = norm3 env (rayPoint o d v.t1) - R

/-- One iteration of the fixed-point loop, lines 369-466, entered with
`it <= maxit`: `Sum.inl` when the iteration ends the call (an `exit`, or
`done` set by the acceptance test and then `return hasIntersection()`),
`Sum.inr (p, tol, run)` when it ends with the new point `p` and the
tolerance `tol` for the next iteration. -/
def fixedStep (env : Env) (observerPos lookDirection : Vec3) (newPt : Vec3) (tol : ℚ)
    (run : Run) : (Outcome × Run) ⊕ (Vec3 × ℚ × Run) :=
  let run := run.record (Call.fixedLookup (latLon env newPt).1 (latLon env newPt).2)
  match radiusAt env newPt with
  | none => Sum.inl (Outcome.exited 1, run.setHasIntersection false)
  | some r =>
    let run := run.record (Call.fixedSurfpt r)
    match env.surfpt observerPos lookDirection r r r with
    | none => Sum.inl (Outcome.exited 1, run.setHasIntersection false)
    | some p =>
      let run := run.setHasIntersection true
      if dist2 newPt p < tol * tol then
        let run := run.setPoint p
        let tol := env.resolution p / 100
        if dist2 newPt p < tol * tol then
          let run := run.setHasIntersection true
          Sum.inl (Outcome.returned run.st.hasIntersection, run)
        else Sum.inr (p, tol, run)
      else Sum.inr (p, tol, run)

/-- The point `newIntersectPt`, the tolerance and the state on entry of each
iteration that the fixed-point loop executes, in order, with `k` iterations
left. -/
def fixedTrace (env : Env) (observerPos lookDirection : Vec3) :
    Nat → Vec3 → ℚ → Run → List (Vec3 × ℚ × Run)
  | 0, _, _, _ => []
  | k + 1, newPt, tol, run =>
    (newPt, tol, run) ::
      match fixedStep env observerPos lookDirection newPt tol run with
      | Sum.inl _ => []
      | Sum.inr (p, tol1, run1) => fixedTrace env observerPos lookDirection k p tol1 run1

/-- The acceptance test of a fixed-point iteration entered at `cur` with
tolerance `tol`: the lookup gives `r`, the re-intersection gives `q`, and the
squared displacement passes both stages of the test. -/
def FixedAccepts (env : Env) (o d : Vec3) (cur : Vec3) (tol r : ℚ) (q : Vec3) : Prop :=
  radiusAt env cur = some r ∧ env.surfpt o d r r r = some q ∧
    dist2 cur q < tol * tol ∧
    dist2 cur q < env.resolution q / 100 * (env.resolution q / 100)

/-- The probed grid positions (sample, line) in raster scan order, as the
specification words it: line by line, and by increasing sample within a
line. -/
def probePositionsRasterScan (env : Env) : List (Int × Int) :=
  let sampleSpacing := max (env.sampleCount / 6) 1
  let lineSpacing := max (env.lineCount / 6) 1
  (probeAxis env.lineCount lineSpacing).flatMap
    (fun l => (probeAxis env.sampleCount sampleSpacing).map (fun s => (s, l)))

/-- What `calculateDefaultNormal` does: it returns with a new state, or throws
the Programmer exception of line 577, or throws from `NaifStatus::CheckErrors`
after `surfnm_c` has signalled an error.  A throw carries the state of the
shape model at the moment of the throw. -/
inductive NormalResult where
  | ok (st : ShapeState)
  | programmerError (st : ShapeState)
  | naifError (st : ShapeState)
deriving DecidableEq

/-- NAIF `vsub_c`: the difference of two vectors. -/
def vsub (a b : Vec3) : Vec3 := ⟨a.x - b.x, a.y - b.y, a.z - b.z⟩

/-- NAIF `vcrss_c`: the cross product of two vectors. -/
def vcrss (a b : Vec3) : Vec3 :=
  ⟨a.y * b.z - a.z * b.y, a.z * b.x - a.x * b.z, a.x * b.y - a.y * b.x⟩

/-- NAIF `vdot_c`: the dot product of two vectors. -/
def vdot (a b : Vec3) : ℚ := a.x * b.x + a.y * b.y + a.z * b.z

/-- NAIF `vminus_c`: the negation of a vector. -/
def vminus (a : Vec3) : Vec3 := ⟨-a.x, -a.y, -a.z⟩

/-- The zero vector. -/
def vzero : Vec3 := ⟨0, 0, 0⟩

/-- The largest absolute value of the components of a vector. -/
def maxAbs (v : Vec3) : ℚ := max |v.x| (max |v.y| |v.z|)

/-- Scales a vector by `1 / m`. -/
def vscaleInv (v : Vec3) (m : ℚ) : Vec3 := ⟨v.x / m, v.y / m, v.z / m⟩

/-- NAIF `vnorm_c`: the magnitude of a vector, computed on the vector scaled by
its largest component; exactly 0 for the zero vector. -/
def vnorm (env : Env) (v : Vec3) : ℚ :=
  let m := maxAbs v
  if m = 0 then 0 else m * norm3 env (vscaleInv v m)

/-- NAIF `vhat_c`: the unit vector along `v`, the zero vector when `v` has
magnitude zero. -/
def vhat (env : Env) (v : Vec3) : Vec3 :=
  let m := vnorm env v
  if m > 0 then vscaleInv v m else vzero

/-- NAIF `unorm_c`: the unit vector along `v` and the magnitude of `v`; the
zero vector when the magnitude is zero. -/
def unorm (env : Env) (v : Vec3) : Vec3 × ℚ :=
  let m := vnorm env v
  (if m > 0 then vscaleInv v m else vzero, m)

/-- NAIF `ucrss_c`: the unit vector along the cross product of `v1` and `v2`,
computed on the two vectors scaled by their largest components; the zero
vector when the cross product has magnitude zero. -/
def ucrss (env : Env) (v1 v2 : Vec3) : Vec3 :=
  let m1 := maxAbs v1
  let m2 := maxAbs v2
  let t1 := if m1 ≠ 0 then vscaleInv v1 m1 else vzero
  let t2 := if m2 ≠ 0 then vscaleInv v2 m2 else vzero
  let c := vcrss t1 t2
  let m := vnorm env c
  if m > 0 then vscaleInv c m else vzero

/-- NAIF `surfnm_c a b c point`: the outward unit normal of the ellipsoid with
semi-axes `a`, `b`, `c` at `point`; `none` when an axis is not positive, which
NAIF signals as an error. -/
def surfnm (env : Env) (a b c : ℚ) (p : Vec3) : Option Vec3 :=
  if a ≤ 0 ∨ b ≤ 0 ∨ c ≤ 0 then none
  else
    let m := min a (min b c)
    let a1 := m / a
    let b1 := m / b
    let c1 := m / c
    some (vhat env ⟨p.x * (a1 * a1), p.y * (b1 * b1), p.z * (c1 * c1)⟩)

/-- Method `DemShape::calculateDefaultNormal`. -/
def calculateDefaultNormal (env : Env) (st : ShapeState) : NormalResult :=
  match st.point with
  | none => NormalResult.programmerError st
  | some pB =>
    if !st.hasIntersection then NormalResult.programmerError st
    else
      let a := env.targetRadii.1
      let b := env.targetRadii.2.1
      let c := env.targetRadii.2.2
      match surfnm env a b c pB with
      | none => NormalResult.naifError st
      | some normal => NormalResult.ok { st with normal := normal, hasNormal := true }

/-- Method `DemShape::calculateSurfaceNormal`. -/
def calculateSurfaceNormal (env : Env) (st : ShapeState) : NormalResult :=
  calculateDefaultNormal env st

/-- What `calculateLocalNormal` does: it returns with a new state, or reads an
element of `neighborPoints` beyond the length of the list, or throws when the
stored surface point, which it converts with `ToNaifArray`, is not valid. -/
inductive LocalNormalResult where
  | ok (st : ShapeState)
  | outOfRange
  | invalidPoint (st : ShapeState)
deriving DecidableEq

/-- Method `DemShape::calculateLocalNormal`; `neighborPoints` holds top,
bottom, left, right at the indices 0, 1, 2, 3. -/
def calculateLocalNormal (env : Env) (neighborPoints : List Vec3) (st : ShapeState) :
    LocalNormalResult :=
  if neighborPoints.isEmpty then
    LocalNormalResult.ok { st with normal := vzero, hasNormal := false }
  else
    match neighborPoints[0]?, neighborPoints[1]?, neighborPoints[2]?, neighborPoints[3]? with
    | some top, some bottom, some left, some right =>
      let topMinusBottom := vsub top bottom
      let rightMinusLeft := vsub right left
      let normal := ucrss env topMinusBottom rightMinusLeft
      let un := unorm env normal
      if un.2 = 0 then
        LocalNormalResult.ok { st with normal := vzero, hasNormal := false }
      else
        let st := { st with hasNormal := true }
        match st.point with
        | none => LocalNormalResult.invalidPoint st
        | some pB =>
          let centerLookVect := (unorm env pB).1
          let dotprod := vdot un.1 centerLookVect
          let normal := if dotprod < 0 then vminus un.1 else un.1
          LocalNormalResult.ok { st with normal := normal }
    | _, _, _, _ => LocalNormalResult.outOfRange

/-! ## Concrete instances of the external capabilities

Used to run the embedded methods on explicit inputs. -/

/-- Binary digit-by-digit integer square root: with `acc * acc ≤ n`, tries the
bits `b - 1, ..., 0` from the top. -/
def isqrtBits (n : Nat) : Nat → Nat → Nat
  | 0, acc => acc
  | b + 1, acc =>
    if (acc + 2 ^ b) * (acc + 2 ^ b) ≤ n then isqrtBits n b (acc + 2 ^ b)
    else isqrtBits n b acc

/-- Searches upwards from `b`, for at most `fuel` steps, for an exponent `e`
with `n < 2 ^ e`. -/
def powBound (n : Nat) : Nat → Nat → Nat
  | 0, b => b
  | fuel + 1, b => if n < 2 ^ b then b else powBound n fuel (b + 1)

/-- The integer square root, rounded down. -/
def isqrt (n : Nat) : Nat := isqrtBits n (powBound n n 0) 0

/-- A square root on the rationals: exact on squares of rationals, and
otherwise rounded down to twelve decimals. -/
def qsqrt (q : ℚ) : ℚ :=
  let n := q.num.toNat
  let d := q.den
  if isqrt n * isqrt n = n ∧ isqrt d * isqrt d = d then (isqrt n : ℚ) / (isqrt d : ℚ)
  else (isqrt (n * 10 ^ 24 / d) : ℚ) / 10 ^ 12

/-- The number pi to sixteen digits. -/
def piQ : ℚ := 3141592653589793 / 1000000000000000

/-- Rounds down to fifteen decimals. -/
def roundQ (q : ℚ) : ℚ :=
  (((q * 1000000000000000).num / ((q * 1000000000000000).den : Int) : Int) : ℚ) /
    1000000000000000

/-- The Taylor polynomial of `atan` of degree 13, for `|z| ≤ 1 / 8`. -/
def atanSmall (z : ℚ) : ℚ :=
  z * (1 - z * z * (1 / 3 - z * z * (1 / 5 - z * z * (1 / 7 - z * z *
    (1 / 9 - z * z * (1 / 11 - z * z / 13))))))

/-- The function `atan` on `0 ≤ z ≤ 1`, by `atan z = atan c + atan ((z - c) / (1 + z * c))`
with `c` the nearest of 0, 1/4, 1/2, 3/4, 1. -/
def atanUnit (z : ℚ) : ℚ :=
  if z ≤ 1 / 8 then atanSmall z
  else if z ≤ 3 / 8 then
    24497866312686414 / 100000000000000000 + atanSmall ((z - 1 / 4) / (1 + z / 4))
  else if z ≤ 5 / 8 then
    4636476090008061 / 10000000000000000 + atanSmall ((z - 1 / 2) / (1 + z / 2))
  else if z ≤ 7 / 8 then
    6435011087932844 / 10000000000000000 + atanSmall ((z - 3 / 4) / (1 + z * 3 / 4))
  else piQ / 4 + atanSmall ((z - 1) / (1 + z))

/-- The function `atan` on `-1 ≤ z ≤ 1`. -/
def atanQ (z : ℚ) : ℚ := if z < 0 then -atanUnit (-z) else atanUnit z

/-- The function `atan2 y x` in radians, to about fifteen decimals; its value
is exactly 0 on the positive x axis. -/
def atan2Q (y x : ℚ) : ℚ :=
  if x = 0 ∧ y = 0 then 0
  else if |y| ≤ |x| then
    if x > 0 then roundQ (atanQ (y / x))
    else if y ≥ 0 then roundQ (atanQ (y / x) + piQ)
    else roundQ (atanQ (y / x) - piQ)
  else
    if y > 0 then roundQ (piQ / 2 - atanQ (x / y))
    else roundQ (-(piQ / 2) - atanQ (x / y))

/-- The near intersection of the ray from `o` along `u` with the ellipsoid of
semi-axes `a`, `b`, `c`, as NAIF `surfpt_c` finds it: `none` when the ray
misses the ellipsoid. -/
def naifSurfpt (o u : Vec3) (a b c : ℚ) : Option Vec3 :=
  if a ≤ 0 ∨ b ≤ 0 ∨ c ≤ 0 then none
  else
    let ox := o.x / a
    let oy := o.y / b
    let oz := o.z / c
    let ux := u.x / a
    let uy := u.y / b
    let uz := u.z / c
    let qa := ux * ux + uy * uy + uz * uz
    let qb := ox * ux + oy * uy + oz * uz
    let qc := ox * ox + oy * oy + oz * oz - 1
    let disc := qb * qb - qa * qc
    if qa = 0 ∨ disc < 0 then none
    else if qc > 0 ∧ qb ≥ 0 then none
    else
      let t := if qc > 0 then (-qb - qsqrt disc) / qa else (-qb + qsqrt disc) / qa
      some ⟨o.x + t * u.x, o.y + t * u.y, o.z + t * u.z⟩

/-- An environment with the concrete `qsqrt`, `atan2Q` and `naifSurfpt`, a DEM
given by its interpolated value in meters at (lat, lon), a resolution, a
one-by-one DEM cube whose only pixel is never probed, and target radii
`radius` km. -/
def mkEnv (dem : ℚ → ℚ → Option ℚ) (res : Vec3 → ℚ) (radius : ℚ) : Env where
  sqrt := qsqrt
  atan2 := atan2Q
  RAD2DEG := 180 / piQ
  surfpt := naifSurfpt
  demInterpolate := dem
  resolution := res
  sampleCount := 1
  lineCount := 1
  readPixel := fun _ _ => none
  targetRadii := (radius, radius, radius)

/-- A state of a freshly constructed shape model: no intersection, no DEM
value found yet. -/
def freshState : ShapeState where
  point := none
  hasIntersection := false
  demValueFound := false
  demValue := 0
  normal := ⟨0, 0, 0⟩
  hasNormal := false

/-- Scenario A: the observer on the x axis, 5000 km from the body center. -/
def obsA : Vec3 := ⟨5000, 0, 0⟩

/-- The look direction `(-1, 0, 0)`. -/
def lookMinusX : Vec3 := ⟨-1, 0, 0⟩

/-- The look direction `(1, 0, 0)`; from `obsA` it points away from the body. -/
def lookPlusX : Vec3 := ⟨1, 0, 0⟩

/-- Scenario A: a DEM of 3396 km everywhere, 1 m/pixel, target radii 3396 km. -/
def envA : Env := mkEnv (fun _ _ => some 3396000) (fun _ => 1) 3396

/-- A DEM without any data, 1 m/pixel, target radii 3396 km. -/
def envNoData : Env := mkEnv (fun _ _ => none) (fun _ => 1) 3396

/-- A state left by an earlier successful intersection at `(3396, 0, 0)`. -/
def staleState : ShapeState :=
  { freshState with point := some ⟨3396, 0, 0⟩, hasIntersection := true }

/-- An observer 10 km out whose ray along `(-1, 0, 0)` passes the body center
at a distance of 3 km. -/
def obsOffset : Vec3 := ⟨10, 3, 0⟩

/-- An observer 10 km out whose ray along `(-1, 0, 0)` passes the body center
at a distance of 4.95 km. -/
def obsLimb : Vec3 := ⟨10, 495 / 100, 0⟩

/-- A DEM of 3.25 km with a no-data hole for longitudes from 50 to 62 degrees,
1 m/pixel, target radii 5 km. -/
def envHole : Env :=
  mkEnv (fun _ lon => if 50 ≤ lon ∧ lon ≤ 62 then none else some 3250) (fun _ => 1) 5

/-- A DEM of 3.25 km that ends at longitude 50 degrees (no data beyond),
1 m/pixel, target radii 5 km. -/
def envEdge : Env :=
  mkEnv (fun _ lon => if 50 ≤ lon then none else some 3250) (fun _ => 1) 5

/-- A DEM of 4.9 km that ends at longitude 85 degrees (no data beyond),
1 m/pixel, target radii 5 km. -/
def envLimb : Env :=
  mkEnv (fun _ lon => if 85 ≤ lon then none else some 4900) (fun _ => 1) 5

/-- A DEM with a slope: 5000 m up to longitude 36.862 degrees, 5001 m from
longitude 36.869 degrees on, rising linearly in between. -/
def rampDem (_lat lon : ℚ) : Option ℚ :=
  if lon ≤ 36862 / 1000 then some 5000
  else if 36869 / 1000 ≤ lon then some 5001
  else some (5000 + (lon - 36862 / 1000) / (7 / 1000))

/-- The DEM `rampDem` seen at 120 m/pixel, target radii 5 km. -/
def envRamp : Env := mkEnv rampDem (fun _ => 120) 5

/-- A DEM of 5 km everywhere, 1 m/pixel, target radii 4 km. -/
def envFlat : Env := mkEnv (fun _ _ => some 5000) (fun _ => 1) 4

/-- A DEM cube of 3 samples by 3 lines whose probed pixels are valid at
(sample 1, line 2), 3396000 m, and at (sample 2, line 1), 3397000 m, and
special elsewhere. -/
def envRaster : Env :=
  { envA with
    sampleCount := 3
    lineCount := 3
    readPixel := fun s l =>
      if s = 1 ∧ l = 2 then some 3396000
      else if s = 2 ∧ l = 1 then some 3397000
      else none }

/-- A DEM cube of 12 samples by 12 lines without any valid pixel, target radii
3396.19, 3396.19 and 3376.2 km. -/
def envNoPixels : Env :=
  { envA with
    sampleCount := 12
    lineCount := 12
    readPixel := fun _ _ => none
    targetRadii := (339619 / 100, 339619 / 100, 33762 / 10) }

/-- Four neighbor points (top, bottom, left, right) around `(3396, 0, 0)`, in
the plane `x = 3396`. -/
def neighborsX : List Vec3 :=
  [⟨3396, 0, 1⟩, ⟨3396, 0, -1⟩, ⟨3396, -1, 0⟩, ⟨3396, 1, 0⟩]

/-- Four neighbor points that lie on one line. -/
def neighborsLine : List Vec3 :=
  [⟨3396, 0, 1⟩, ⟨3396, 0, -1⟩, ⟨3396, 0, -2⟩, ⟨3396, 0, 2⟩]

/-- Scenario A with target radii that are not those of an ellipsoid: 0 km. -/
def envZeroRadii : Env := { envA with targetRadii := (0, 0, 0) }

/-- The second iteration of the secant loop of scenario A (fresh state, first
sphere intersection `(3396, 0, 0)`): its window and the state on its entry. -/
def scenarioASecondIteration : SecantVars × Run :=
  (secantIterations envA obsA lookMinusX ⟨3396, 0, 0⟩
    ⟨(findDemValue envA freshState).2, [Call.initSurfpt 3396]⟩).getD 1
    (⟨0, 0, 0, 0, 0, vzero⟩, ⟨freshState, []⟩)

/-- Scenario A seen by a sensor whose resolution grows with the distance from
the observer `obsA`: 10 m/pixel at 1604 km. -/
def envStale : Env :=
  mkEnv (fun _ _ => some 3396000) (fun p => (5000 - p.x) * 10 / 1604) 3396

/-- The first iteration of the secant loop for `envStale`, the observer `obsA`
and the look direction `lookMinusX`: its window and the state on its entry. -/
def staleFirstIteration : SecantVars × Run :=
  (secantIterations envStale obsA lookMinusX ⟨3396, 0, 0⟩
    ⟨(findDemValue envStale freshState).2, [Call.initSurfpt 3396]⟩).getD 0
    (⟨0, 0, 0, 0, 0, vzero⟩, ⟨freshState, []⟩)

/-- An observer whose ray along `(0, 1, 0)` touches the sphere of radius
10000 km at `(10000, 0, 0)`. -/
def obsTangent : Vec3 := ⟨10000, -10, 0⟩

/-- The look direction `(0, 1, 0)`. -/
def lookPlusY : Vec3 := ⟨0, 1, 0⟩

/-- A DEM of 9999 km everywhere, 1 m/pixel, target radii 10000 km. -/
def envTangent : Env := mkEnv (fun _ _ => some 9999000) (fun _ => 1) 10000

/-- The first iteration of the secant loop for `envTangent`, the observer
`obsTangent` and the look direction `lookPlusY`. -/
def tangentFirstIteration : SecantVars × Run :=
  (secantIterations envTangent obsTangent lookPlusY ⟨10000, 0, 0⟩
    ⟨(findDemValue envTangent freshState).2, [Call.initSurfpt 10000]⟩).getD 0
    (⟨0, 0, 0, 0, 0, vzero⟩, ⟨freshState, []⟩)

/-- The first iteration of the secant loop of scenario A. -/
def scenarioAFirstIteration : SecantVars × Run :=
  (secantIterations envA obsA lookMinusX ⟨3396, 0, 0⟩
    ⟨(findDemValue envA freshState).2, [Call.initSurfpt 3396]⟩).getD 0
    (⟨0, 0, 0, 0, 0, vzero⟩, ⟨freshState, []⟩)

/-- The first sphere intersection for `envFlat` from `obsOffset` along
`lookMinusX`. -/
def flatFirstPoint : Vec3 := (naifSurfpt obsOffset lookMinusX 4 4 4).getD vzero

/-- How the secant stage ends for `envFlat`, the observer `obsOffset` and the
look direction `lookMinusX`, from a fresh state. -/
def flatSecantEnd : SecantEnd :=
  match secantStage envFlat obsOffset lookMinusX flatFirstPoint
    ⟨(findDemValue envFlat freshState).2,
      [Call.initSurfpt (initialRadius envFlat obsOffset freshState)]⟩ with
  | Sum.inr s => s
  | Sum.inl run => ⟨false, 0, run⟩

/-- The second iteration of the secant loop for `envStale`. -/
def staleSecondIteration : SecantVars × Run :=
  (secantIterations envStale obsA lookMinusX ⟨3396, 0, 0⟩
    ⟨(findDemValue envStale freshState).2, [Call.initSurfpt 3396]⟩).getD 1
    (⟨0, 0, 0, 0, 0, vzero⟩, ⟨freshState, []⟩)

/-- How the secant stage ends for `envRamp`, the observer `obsOffset` and the
look direction `lookMinusX`, entered at the first sphere intersection
`(4, 3, 0)` from a fresh state. -/
def rampSecantEnd : SecantEnd :=
  match secantStage envRamp obsOffset lookMinusX ⟨4, 3, 0⟩
    ⟨(findDemValue envRamp freshState).2,
      [Call.initSurfpt (initialRadius envRamp obsOffset freshState)]⟩ with
  | Sum.inr s => s
  | Sum.inl run => ⟨false, 0, run⟩

end DemShape

/-! ## Basic facts about the state updates -/

namespace DemShape

@[simp] theorem Run.record_st (r : Run) (c : Call) : (r.record c).st = r.st := rfl

@[simp] theorem Run.record_log (r : Run) (c : Call) : (r.record c).log = r.log ++ [c] := rfl

@[simp] theorem Run.setHasIntersection_log (r : Run) (b : Bool) :
    (r.setHasIntersection b).log = r.log := rfl

@[simp] theorem Run.setPoint_log (r : Run) (p : Vec3) : (r.setPoint p).log = r.log := rfl

@[simp] theorem Run.setHasIntersection_has (r : Run) (b : Bool) :
    (r.setHasIntersection b).st.hasIntersection = b := rfl

@[simp] theorem Run.setPoint_has (r : Run) (p : Vec3) :
    (r.setPoint p).st.hasIntersection = r.st.hasIntersection := rfl

/-! ## The call log of the stages -/

theorem demError_log (env : Env) (o d : Vec3) (t : ℚ) (run : Run) :
    (demError env o d t run).run.log = run.log ++ [Call.demError t] := by
  simp only [demError]
  split <;> simp

theorem secantTest_log (env : Env) (v : SecantVars) (run : Run) :
    (secantTest env v run).run.log = run.log := by
  simp only [secantTest]
  split
  · split <;> simp
  · rfl

theorem secantLoop_log (env : Env) (o d : Vec3) (n : Nat) :
    ∀ (v : SecantVars) (run : Run),
      ∃ ts : List ℚ, (secantLoop env o d n v run).run.log = run.log ++ ts.map Call.demError ∧
        ts.length ≤ n := by
  induction n with
  | zero => intro v run; exact ⟨[], by simp [secantLoop], by simp⟩
  | succ n ih =>
    intro v run
    simp only [secantLoop]
    cases hs : secantStep env o d v run with
    | inl s =>
      simp only [secantStep] at hs
      split at hs
      · cases hs; exact ⟨[], by simp [secantTest_log], by simp⟩
      · split at hs
        · cases hs; exact ⟨[], by simp [secantTest_log], by simp⟩
        · split at hs
          · cases hs
          · cases hs
            exact ⟨[secantUpdate v], by simp [demError_log, secantTest_log], by simp⟩
    | inr vr =>
      obtain ⟨v1, run1⟩ := vr
      simp only [secantStep] at hs
      split at hs
      · cases hs
      · split at hs
        · cases hs
        · split at hs
          · cases hs
            obtain ⟨ts, h1, h2⟩ := ih ⟨v.t1, v.f1, secantUpdate v,
              (demError env o d (secantUpdate v) (secantTest env v run).run).value,
              (secantTest env v run).tol,
              (demError env o d (secantUpdate v) (secantTest env v run).run).point⟩
              (demError env o d (secantUpdate v) (secantTest env v run).run).run
            refine ⟨secantUpdate v :: ts, ?_, by simpa using h2⟩
            simp only [h1, demError_log, secantTest_log]
            simp
          · cases hs

theorem fixedLoop_log (env : Env) (o d : Vec3) (k : Nat) :
    ∀ (newPt : Vec3) (tol : ℚ) (run : Run),
      ∃ l : List Call, (fixedLoop env o d k newPt tol run).2.log = run.log ++ l ∧
        l.countP Call.isDemError = 0 ∧
        l.countP Call.isFixedLookup ≤ k ∧
        l.countP Call.isFixedSurfpt ≤ k ∧
        (0 < k → 0 < l.countP Call.isFixedLookup) := by
  induction k with
  | zero => intro newPt tol run; exact ⟨[], by simp [fixedLoop]⟩
  | succ k ih =>
    intro newPt tol run
    simp only [fixedLoop]
    split
    · exact ⟨[Call.fixedLookup (latLon env newPt).1 (latLon env newPt).2], by
        simp [Call.isDemError, Call.isFixedLookup, Call.isFixedSurfpt]⟩
    · rename_i r _
      split
      · exact ⟨[Call.fixedLookup (latLon env newPt).1 (latLon env newPt).2, Call.fixedSurfpt r], by
          simp [Call.isDemError, Call.isFixedLookup, Call.isFixedSurfpt]⟩
      · rename_i p _
        have key : ∀ (tol1 : ℚ) (run1 : Run),
            run1.log = run.log ++
              [Call.fixedLookup (latLon env newPt).1 (latLon env newPt).2, Call.fixedSurfpt r] →
            ∃ l : List Call, (fixedLoop env o d k p tol1 run1).2.log = run.log ++ l ∧
              l.countP Call.isDemError = 0 ∧
              l.countP Call.isFixedLookup ≤ k + 1 ∧
              l.countP Call.isFixedSurfpt ≤ k + 1 ∧
              (0 < k + 1 → 0 < l.countP Call.isFixedLookup) := by
          intro tol1 run1 h1
          obtain ⟨l, e, c1, c2, c3, _⟩ := ih p tol1 run1
          refine ⟨[Call.fixedLookup (latLon env newPt).1 (latLon env newPt).2,
            Call.fixedSurfpt r] ++ l, ?_, ?_, ?_, ?_, ?_⟩
          · rw [e, h1, List.append_assoc]
          · simp [List.countP_cons, Call.isDemError, c1]
          · simp [List.countP_cons, Call.isFixedLookup]; omega
          · simp [List.countP_cons, Call.isFixedSurfpt]; omega
          · intro _; simp [List.countP_cons, Call.isFixedLookup]
        split
        · split
          · exact ⟨[Call.fixedLookup (latLon env newPt).1 (latLon env newPt).2,
              Call.fixedSurfpt r], by
              simp [Call.isDemError, Call.isFixedLookup, Call.isFixedSurfpt]⟩
          · exact key _ _ (by simp)
        · exact key _ _ (by simp)

/-! ## The member variables that an intersection does not touch -/

@[simp] theorem Run.setHasIntersection_rest (r : Run) (b : Bool) :
    (r.setHasIntersection b).st.rest = r.st.rest := rfl

@[simp] theorem Run.setPoint_rest (r : Run) (p : Vec3) : (r.setPoint p).st.rest = r.st.rest := rfl

theorem demError_rest (env : Env) (o d : Vec3) (t : ℚ) (run : Run) :
    (demError env o d t run).run.st.rest = run.st.rest := by
  simp only [demError]
  split <;> simp

theorem secantTest_rest (env : Env) (v : SecantVars) (run : Run) :
    (secantTest env v run).run.st.rest = run.st.rest := by
  simp only [secantTest]
  split
  · split <;> simp
  · rfl

theorem secantStep_inl_rest (env : Env) (o d : Vec3) (v : SecantVars) (run : Run)
    (s : SecantEnd) (h : secantStep env o d v run = Sum.inl s) :
    s.run.st.rest = run.st.rest := by
  simp only [secantStep] at h
  split at h
  · cases h; exact secantTest_rest env v run
  · split at h
    · cases h; exact secantTest_rest env v run
    · split at h
      · cases h
      · cases h; simp [demError_rest, secantTest_rest]

theorem secantStep_inr_rest (env : Env) (o d : Vec3) (v : SecantVars) (run : Run)
    (v1 : SecantVars) (run1 : Run) (h : secantStep env o d v run = Sum.inr (v1, run1)) :
    run1.st.rest = run.st.rest := by
  simp only [secantStep] at h
  split at h
  · cases h
  · split at h
    · cases h
    · split at h
      · cases h; simp [demError_rest, secantTest_rest]
      · cases h

theorem secantLoop_rest (env : Env) (o d : Vec3) (n : Nat) :
    ∀ (v : SecantVars) (run : Run), (secantLoop env o d n v run).run.st.rest = run.st.rest := by
  induction n with
  | zero => intro v run; rfl
  | succ n ih =>
    intro v run
    simp only [secantLoop]
    cases hs : secantStep env o d v run with
    | inl s => exact secantStep_inl_rest env o d v run s hs
    | inr vr =>
      obtain ⟨v1, run1⟩ := vr
      simp only []
      rw [ih, secantStep_inr_rest env o d v run v1 run1 hs]

theorem fixedLoop_rest (env : Env) (o d : Vec3) (k : Nat) :
    ∀ (newPt : Vec3) (tol : ℚ) (run : Run),
      (fixedLoop env o d k newPt tol run).2.st.rest = run.st.rest := by
  induction k with
  | zero => intro newPt tol run; rfl
  | succ k ih =>
    intro newPt tol run
    simp only [fixedLoop]
    split
    · rfl
    · split
      · rfl
      · split
        · split
          · rfl
          · rw [ih]; rfl
        · rw [ih]; rfl

theorem secantStage_inl_rest (env : Env) (o d p : Vec3) (run run1 : Run)
    (h : secantStage env o d p run = Sum.inl run1) : run1.st.rest = run.st.rest := by
  simp only [secantStage] at h
  split at h
  · cases h; simp [demError_rest]
  · split at h
    · cases h; simp [demError_rest]
    · cases h

theorem secantStage_inr_rest (env : Env) (o d p : Vec3) (run : Run) (s : SecantEnd)
    (h : secantStage env o d p run = Sum.inr s) : s.run.st.rest = run.st.rest := by
  simp only [secantStage] at h
  split at h
  · cases h
  · split at h
    · cases h
    · cases h; simp [secantLoop_rest, demError_rest]

theorem intersectSurface_rest (env : Env) (o d : Vec3) (st : ShapeState) :
    (intersectSurface env o d st).2.st.rest = (findDemValue env st).2.rest := by
  simp only [intersectSurface]
  split
  · rfl
  · rename_i p _
    cases hs : secantStage env o d p
        ⟨(findDemValue env st).2, [Call.initSurfpt (initialRadius env o st)]⟩ with
    | inl run1 => simpa using secantStage_inl_rest env o d p _ run1 hs
    | inr s =>
      simp only []
      rw [fixedLoop_rest]
      simpa using secantStage_inr_rest env o d p _ s hs

theorem findDemValue_found (env : Env) (st : ShapeState) :
    (findDemValue env st).2.demValueFound = true := by
  unfold findDemValue
  split
  · assumption
  · split <;> rfl

theorem findDemValue_value (env : Env) (st : ShapeState) :
    (findDemValue env st).2.demValue = (findDemValue env st).1 := by
  unfold findDemValue
  split
  · rfl
  · split <;> rfl

/-- A state that holds the cache left by `findDemValue` gets the cached value
back and is not changed. -/
theorem findDemValue_cached (env : Env) (st st1 : ShapeState)
    (h : st1.rest = (findDemValue env st).2.rest) :
    findDemValue env st1 = ((findDemValue env st).1, st1) := by
  have hf := findDemValue_found env st
  have hv := findDemValue_value env st
  simp only [ShapeState.rest, Prod.mk.injEq] at h
  have h1 : st1.demValueFound = true := by rw [h.1, hf]
  have h2 : st1.demValue = (findDemValue env st).1 := by rw [h.2.1, hv]
  conv_lhs => unfold findDemValue
  simp [h1, h2]

theorem Run.reset_congr (a b : ShapeState) (l : List Call) (p : Vec3) (h : a.rest = b.rest) :
    ((Run.mk a l).setPoint p).setHasIntersection true =
      ((Run.mk b l).setPoint p).setHasIntersection true := by
  cases a; cases b
  simp only [ShapeState.rest, Prod.mk.injEq] at h
  simp [Run.setPoint, Run.setHasIntersection, h]

theorem secantStage_congr (env : Env) (o d p : Vec3) (a b : ShapeState) (l : List Call)
    (h : a.rest = b.rest) :
    secantStage env o d p ⟨a, l⟩ = secantStage env o d p ⟨b, l⟩ := by
  simp only [secantStage, Run.reset_congr a b l p h]

end DemShape

namespace DemShape

/-! ## Counting the logged calls -/

theorem countP_isDemError_map (ts : List ℚ) :
    (ts.map Call.demError).countP Call.isDemError = ts.length := by
  induction ts with
  | nil => rfl
  | cons t ts ih => simp [List.countP_cons, Call.isDemError, ih]

theorem countP_isFixedLookup_map (ts : List ℚ) :
    (ts.map Call.demError).countP Call.isFixedLookup = 0 := by
  induction ts with
  | nil => rfl
  | cons t ts ih => simp [List.countP_cons, Call.isFixedLookup, ih]

theorem countP_isFixedSurfpt_map (ts : List ℚ) :
    (ts.map Call.demError).countP Call.isFixedSurfpt = 0 := by
  induction ts with
  | nil => rfl
  | cons t ts ih => simp [List.countP_cons, Call.isFixedSurfpt, ih]

theorem demError_success (env : Env) (o d : Vec3) (t : ℚ) (run : Run) :
    (demError env o d t run).success = (radiusAt env (rayPoint o d t)).isSome := by
  simp only [demError]
  split <;> simp [*]

theorem demError_fail_has (env : Env) (o d : Vec3) (t : ℚ) (run : Run)
    (h : (demError env o d t run).success = false) :
    (demError env o d t run).run.st.hasIntersection = false := by
  simp only [demError] at h ⊢
  split
  · rfl
  · rename_i r hr
    simp [hr] at h

/-- The calls logged by the secant stage are calls of `demError`, at most 102,
whether Init fails or the loop is run. -/
theorem secantStage_log (env : Env) (o d p : Vec3) (run : Run) :
    ∃ ts : List ℚ, ts.length ≤ 102 ∧
      match secantStage env o d p run with
      | Sum.inl run1 => run1.log = run.log ++ ts.map Call.demError
      | Sum.inr s => s.run.log = run.log ++ ts.map Call.demError := by
  cases h0 : (demError env o d (rayParameter o d p)
      ((run.setPoint p).setHasIntersection true)).success
  · refine ⟨[rayParameter o d p], by simp, ?_⟩
    simp [secantStage, h0, demError_log]
  · cases h1 : (demError env o d (rayParameter o d p + 1 / 10000)
        (demError env o d (rayParameter o d p)
          ((run.setPoint p).setHasIntersection true)).run).success
    · refine ⟨[rayParameter o d p, rayParameter o d p + 1 / 10000], by simp, ?_⟩
      simp only [secantStage, h0, h1, demError_log, Bool.not_true, Bool.not_false,
        Bool.false_eq_true, if_false, if_true, List.append_assoc, List.map,
        List.singleton_append, Run.setHasIntersection_log, Run.setPoint_log]
    · obtain ⟨ts, e1, e2⟩ := secantLoop_log env o d 100
        ⟨rayParameter o d p,
          (demError env o d (rayParameter o d p)
            ((run.setPoint p).setHasIntersection true)).value,
          rayParameter o d p + 1 / 10000,
          (demError env o d (rayParameter o d p + 1 / 10000)
            (demError env o d (rayParameter o d p)
              ((run.setPoint p).setHasIntersection true)).run).value,
          env.resolution p / 100,
          (demError env o d (rayParameter o d p + 1 / 10000)
            (demError env o d (rayParameter o d p)
              ((run.setPoint p).setHasIntersection true)).run).point⟩
        (demError env o d (rayParameter o d p + 1 / 10000)
          (demError env o d (rayParameter o d p)
            ((run.setPoint p).setHasIntersection true)).run).run
      refine ⟨rayParameter o d p :: (rayParameter o d p + 1 / 10000) :: ts, ?_, ?_⟩
      · simp only [List.length_cons]; omega
      · simp only [secantStage, h0, h1, e1, demError_log, Bool.not_true, Bool.not_false,
          Bool.false_eq_true, if_false, if_true, List.append_assoc, List.map,
          List.singleton_append, Run.setHasIntersection_log, Run.setPoint_log]
        rfl

/-- Init of the secant stage succeeds when the DEM has data at the two points
it evaluates. -/
theorem secantStage_inr_of_data (env : Env) (o d p : Vec3) (run : Run)
    (h0 : (radiusAt env (rayPoint o d (rayParameter o d p))).isSome = true)
    (h1 : (radiusAt env (rayPoint o d (rayParameter o d p + 1 / 10000))).isSome = true) :
    ∃ s, secantStage env o d p run = Sum.inr s := by
  simp only [secantStage, demError_success, h0, h1]
  exact ⟨_, rfl⟩

/-- Init of the secant stage fails, with `hasIntersection` false, when the DEM
has no data at one of the two points it evaluates. -/
theorem secantStage_inl_of_noData (env : Env) (o d p : Vec3) (run : Run)
    (h : radiusAt env (rayPoint o d (rayParameter o d p)) = none ∨
      radiusAt env (rayPoint o d (rayParameter o d p + 1 / 10000)) = none) :
    ∃ run1, secantStage env o d p run = Sum.inl run1 ∧ run1.st.hasIntersection = false := by
  simp only [secantStage]
  split
  · rename_i h0
    exact ⟨_, rfl, demError_fail_has env o d _ _ (by simpa using h0)⟩
  · rename_i h0
    split
    · rename_i h1
      exact ⟨_, rfl, demError_fail_has env o d _ _ (by simpa using h1)⟩
    · rename_i h1
      rw [demError_success] at h0 h1
      rcases h with h | h
      · rw [h] at h0; simp at h0
      · rw [h] at h1; simp at h1

end DemShape

namespace DemShape

/-- A call on a state that holds the cache left by `findDemValue env st`, and
that equals that state when the first sphere intersection misses, runs exactly
as the call on `st`. -/
theorem intersectSurface_congr (env : Env) (o d : Vec3) (st s1 : ShapeState)
    (hrest : s1.rest = (findDemValue env st).2.rest)
    (hmiss : env.surfpt o d (initialRadius env o st) (initialRadius env o st)
      (initialRadius env o st) = none → s1 = (findDemValue env st).2) :
    intersectSurface env o d s1 = intersectSurface env o d st := by
  have hfd := findDemValue_cached env st s1 hrest
  have hr : initialRadius env o s1 = initialRadius env o st := by
    simp only [initialRadius, hfd]
  simp only [intersectSurface, hr, hfd]
  cases hs : env.surfpt o d (initialRadius env o st) (initialRadius env o st)
      (initialRadius env o st) with
  | none => simp only [hmiss hs]
  | some p => simp only [secantStage_congr env o d p s1 (findDemValue env st).2 _ hrest]

end DemShape

namespace DemShape

/-- When the first `k` iterations of the fixed-point loop run to their end
without acceptance, the loop with `k` iterations left ends at `it > maxit`:
the flag is cleared and false is returned. -/
theorem fixedLoop_of_rejects (env : Env) (o d : Vec3) (k : Nat) :
    ∀ (newPt : Vec3) (tol : ℚ) (run : Run),
      fixedRejects env o d k newPt tol = true →
      (fixedLoop env o d k newPt tol run).1 = Outcome.returned false ∧
      (fixedLoop env o d k newPt tol run).2.st.hasIntersection = false := by
  induction k with
  | zero => intro newPt tol run _; exact ⟨rfl, rfl⟩
  | succ k ih =>
    intro newPt tol run h
    simp only [fixedRejects] at h
    simp only [fixedLoop]
    split
    · rename_i hr
      simp [hr] at h
    · rename_i r hr
      simp only [hr] at h
      split
      · rename_i hp
        simp [hp] at h
      · rename_i p hp
        simp only [hp] at h
        split
        · rename_i h1
          simp only [h1, if_true] at h
          split
          · rename_i h2
            simp [h2] at h
          · rename_i h2
            simp only [h2, if_false] at h
            exact ih _ _ _ h
        · rename_i h1
          simp only [h1, if_false] at h
          exact ih _ _ _ h

end DemShape

namespace DemShape

/-! ## Tolerances are positive when resolutions are -/

theorem secantTest_tol_pos (env : Env) (v : SecantVars) (run : Run)
    (hres : ∀ q, 0 < env.resolution q) (hv : 0 < v.tol) : 0 < (secantTest env v run).tol := by
  have h100 : 0 < env.resolution v.point / 100 := div_pos (hres _) (by norm_num)
  simp only [secantTest]
  split
  · split <;> exact h100
  · exact hv

theorem secantLoop_tol_pos (env : Env) (o d : Vec3) (hres : ∀ q, 0 < env.resolution q)
    (n : Nat) : ∀ (v : SecantVars) (run : Run), 0 < v.tol →
      0 < (secantLoop env o d n v run).tol := by
  induction n with
  | zero => intro v run hv; exact hv
  | succ n ih =>
    intro v run hv
    have hc := secantTest_tol_pos env v run hres hv
    simp only [secantLoop]
    cases hs : secantStep env o d v run with
    | inl s =>
      simp only [secantStep] at hs
      split at hs
      · cases hs; exact hc
      · split at hs
        · cases hs; exact hc
        · split at hs
          · cases hs
          · cases hs; exact hc
    | inr vr =>
      obtain ⟨v1, run1⟩ := vr
      simp only [secantStep] at hs
      split at hs
      · cases hs
      · split at hs
        · cases hs
        · split at hs
          · cases hs; exact ih _ _ hc
          · cases hs

theorem secantStage_tol_pos (env : Env) (o d p : Vec3) (run : Run) (s : SecantEnd)
    (hres : ∀ q, 0 < env.resolution q) (hs : secantStage env o d p run = Sum.inr s) :
    0 < s.tol := by
  simp only [secantStage] at hs
  split at hs
  · cases hs
  · split at hs
    · cases hs
    · cases hs
      exact secantLoop_tol_pos env o d hres 100 _ _ (div_pos (hres _) (by norm_num))

/-! ## A DEM that is level across the refinement step -/

theorem dist2_self (p : Vec3) : dist2 p p = 0 := by
  simp [dist2]

/-- Started at the point `p` where the ray meets the sphere of the DEM radius
`R` found at `p`, with a positive tolerance, one fixed-point iteration
converges at `p`. -/
theorem fixedLoop_level_at (env : Env) (o d : Vec3) (R : ℚ) (p : Vec3)
    (hp : radiusAt env p = some R) (hR : env.surfpt o d R R R = some p)
    (hres : ∀ q, 0 < env.resolution q) (k : Nat) (tol : ℚ) (run : Run) (htol : 0 < tol) :
    (fixedLoop env o d (k + 1) p tol run).1 = Outcome.returned true ∧
    (fixedLoop env o d (k + 1) p tol run).2.st.point = some p ∧
    (fixedLoop env o d (k + 1) p tol run).2.st.hasIntersection = true := by
  have h100 : 0 < env.resolution p / 100 := div_pos (hres _) (by norm_num)
  have t1 : (0 : ℚ) < tol * tol := mul_pos htol htol
  have t2 : (0 : ℚ) < env.resolution p / 100 * (env.resolution p / 100) := mul_pos h100 h100
  simp only [fixedLoop, hp, hR, dist2_self, t1, t2, if_true]
  exact ⟨rfl, rfl, rfl⟩

/-- When the DEM radius is `R` both at `newPt` and at the point `p` where the
ray meets the sphere of radius `R`, the fixed-point loop started at `newPt`
converges at `p` within two iterations. -/
theorem fixedLoop_level (env : Env) (o d : Vec3) (R : ℚ) (p : Vec3)
    (hR : env.surfpt o d R R R = some p) (hp : radiusAt env p = some R)
    (hres : ∀ q, 0 < env.resolution q) (k : Nat) (newPt : Vec3) (tol : ℚ) (run : Run)
    (hnew : radiusAt env newPt = some R) (htol : 0 < tol) :
    (fixedLoop env o d (k + 2) newPt tol run).1 = Outcome.returned true ∧
    (fixedLoop env o d (k + 2) newPt tol run).2.st.point = some p ∧
    (fixedLoop env o d (k + 2) newPt tol run).2.st.hasIntersection = true := by
  have h100 : 0 < env.resolution p / 100 := div_pos (hres _) (by norm_num)
  rw [fixedLoop]
  simp only [hnew, hR]
  split
  · split
    · exact ⟨rfl, rfl, rfl⟩
    · exact fixedLoop_level_at env o d R p hp hR hres k _ _ h100
  · exact fixedLoop_level_at env o d R p hp hR hres k _ _ htol

/-- When the first sphere intersection hits at `p0`, Init of the secant stage
finds data, the DEM radius is `R` both at `p0` and at the point `p` where the
ray meets the sphere of radius `R`, and resolutions are positive,
`intersectSurface` returns true with `p` stored. -/
theorem intersectSurface_level (env : Env) (o d : Vec3) (st : ShapeState) (R : ℚ)
    (p p0 : Vec3)
    (hinit : env.surfpt o d (initialRadius env o st) (initialRadius env o st)
      (initialRadius env o st) = some p0)
    (h0 : (radiusAt env (rayPoint o d (rayParameter o d p0))).isSome = true)
    (h1 : (radiusAt env (rayPoint o d (rayParameter o d p0 + 1 / 10000))).isSome = true)
    (hp0 : radiusAt env p0 = some R)
    (hR : env.surfpt o d R R R = some p)
    (hp : radiusAt env p = some R)
    (hres : ∀ q, 0 < env.resolution q) :
    (intersectSurface env o d st).1 = Outcome.returned true ∧
    (intersectSurface env o d st).2.st.point = some p ∧
    (intersectSurface env o d st).2.st.hasIntersection = true := by
  obtain ⟨s, hs⟩ := secantStage_inr_of_data env o d p0
    ⟨(findDemValue env st).2, [Call.initSurfpt (initialRadius env o st)]⟩ h0 h1
  have e : intersectSurface env o d st = fixedLoop env o d 100 p0 s.tol s.run := by
    simp only [intersectSurface, hinit, hs]
  rw [e]
  exact fixedLoop_level env o d R p hR hp hres 98 p0 s.tol s.run hp0
    (secantStage_tol_pos env o d p0 _ s hres hs)

/-- The case of a DEM of constant radius `R`. -/
theorem intersectSurface_flat (env : Env) (o d : Vec3) (st : ShapeState) (R : ℚ) (p p0 : Vec3)
    (hdem : ∀ lat lon, localRadius env lat lon = some R)
    (hinit : env.surfpt o d (initialRadius env o st) (initialRadius env o st)
      (initialRadius env o st) = some p0)
    (hR : env.surfpt o d R R R = some p)
    (hres : ∀ q, 0 < env.resolution q) :
    (intersectSurface env o d st).1 = Outcome.returned true ∧
    (intersectSurface env o d st).2.st.point = some p ∧
    (intersectSurface env o d st).2.st.hasIntersection = true := by
  have hdem1 : ∀ q, radiusAt env q = some R := fun q => hdem _ _
  exact intersectSurface_level env o d st R p p0 hinit (by rw [hdem1]; rfl) (by rw [hdem1]; rfl)
    (hdem1 _) hR (hdem1 _) hres

end DemShape

namespace DemShape

/-! ## The concrete square root -/

theorem powBound_spec (n : Nat) : ∀ (fuel b : Nat), n < 2 ^ (b + fuel) → n < 2 ^ powBound n fuel b := by
  intro fuel
  induction fuel with
  | zero => intro b h; simpa [powBound] using h
  | succ f ih =>
    intro b h
    simp only [powBound]
    split
    · assumption
    · exact ih (b + 1) (by rw [show b + 1 + f = b + (f + 1) by omega]; exact h)

theorem isqrtBits_spec (n : Nat) : ∀ (b acc : Nat), acc * acc ≤ n →
    n < (acc + 2 ^ b) * (acc + 2 ^ b) →
    isqrtBits n b acc * isqrtBits n b acc ≤ n ∧
      n < (isqrtBits n b acc + 1) * (isqrtBits n b acc + 1) := by
  intro b
  induction b with
  | zero => intro acc h1 h2; simpa [isqrtBits] using ⟨h1, h2⟩
  | succ b ih =>
    intro acc h1 h2
    simp only [isqrtBits]
    split
    · rename_i h
      exact ih _ h (by rw [Nat.add_assoc, ← Nat.two_mul, ← Nat.pow_succ']; exact h2)
    · rename_i h
      exact ih _ h1 (Nat.lt_of_not_le h)

theorem isqrt_spec (n : Nat) : isqrt n * isqrt n ≤ n ∧ n < (isqrt n + 1) * (isqrt n + 1) := by
  apply isqrtBits_spec n _ 0 (Nat.zero_le _)
  have h := powBound_spec n n 0 (by simpa using Nat.lt_two_pow n)
  have h1 : 1 ≤ 2 ^ powBound n n 0 := Nat.one_le_two_pow
  calc n < 2 ^ powBound n n 0 := h
    _ = 2 ^ powBound n n 0 * 1 := (Nat.mul_one _).symm
    _ ≤ 2 ^ powBound n n 0 * 2 ^ powBound n n 0 := Nat.mul_le_mul_left _ h1
    _ = (0 + 2 ^ powBound n n 0) * (0 + 2 ^ powBound n n 0) := by simp

theorem isqrt_mul_self (m : Nat) : isqrt (m * m) = m := by
  obtain ⟨h1, h2⟩ := isqrt_spec (m * m)
  have a : isqrt (m * m) ≤ m := Nat.mul_self_le_mul_self_iff.mp h1
  have b : m < isqrt (m * m) + 1 := Nat.mul_self_lt_mul_self_iff.mp h2
  omega

/-- The square root `qsqrt` is exact on squares. -/
theorem qsqrt_mul_self (x : ℚ) : qsqrt (x * x) = |x| := by
  have hn : (x * x).num.toNat = x.num.natAbs * x.num.natAbs := by
    rw [Rat.mul_self_num]
    have h : x.num * x.num = ((x.num.natAbs * x.num.natAbs : Nat) : Int) := by
      rw [Int.natCast_mul, Int.natAbs_mul_self']
    rw [h, Int.toNat_natCast]
  have hd : (x * x).den = x.den * x.den := Rat.mul_self_den x
  simp only [qsqrt, hn, hd, isqrt_mul_self, and_self, if_true]
  rw [Rat.abs_def, Rat.divInt_eq_div]
  simp [Nat.cast_natAbs, Int.cast_abs]

end DemShape

namespace DemShape

/-! ## The ellipsoid normal on the x axis -/

theorem vnorm_on_x_axis (env : Env) (X : ℚ) (hX : 0 < X)
    (hsqrt : ∀ y, env.sqrt (y * y) = |y|) : vnorm env ⟨X, 0, 0⟩ = X := by
  have hm : maxAbs ⟨X, 0, 0⟩ = X := by
    simp [maxAbs, abs_of_pos hX, le_of_lt hX]
  have h1 : env.sqrt 1 = 1 := by
    have := hsqrt 1
    simpa using this
  simp only [vnorm, hm, ne_of_gt hX, if_false, norm3, vscaleInv, div_self (ne_of_gt hX),
    zero_div, mul_zero, add_zero, mul_one, h1]

theorem surfnm_on_x_axis (env : Env) (a b c x : ℚ) (ha : 0 < a) (hb : 0 < b) (hc : 0 < c)
    (hx : 0 < x) (hsqrt : ∀ y, env.sqrt (y * y) = |y|) :
    surfnm env a b c ⟨x, 0, 0⟩ = some ⟨1, 0, 0⟩ := by
  have hm : 0 < min a (min b c) := lt_min ha (lt_min hb hc)
  have ha1 : 0 < min a (min b c) / a := div_pos hm ha
  have hX : 0 < x * (min a (min b c) / a * (min a (min b c) / a)) :=
    mul_pos hx (mul_pos ha1 ha1)
  have hn := vnorm_on_x_axis env _ hX hsqrt
  have hcond : ¬ (a ≤ 0 ∨ b ≤ 0 ∨ c ≤ 0) := by
    rintro (h | h | h)
    · exact absurd ha (not_lt.mpr h)
    · exact absurd hb (not_lt.mpr h)
    · exact absurd hc (not_lt.mpr h)
  simp only [surfnm, hcond, if_false, vhat, zero_mul, hn, gt_iff_lt, hX, if_true, vscaleInv,
    zero_div, div_self (ne_of_gt hX)]

end DemShape

namespace DemShape

/-! ## The returned boolean and the flag, once the first sphere intersection hits -/

theorem secantStage_inl_has (env : Env) (o d p : Vec3) (run run1 : Run)
    (h : secantStage env o d p run = Sum.inl run1) : run1.st.hasIntersection = false := by
  simp only [secantStage] at h
  split at h
  · rename_i h0
    cases h
    exact demError_fail_has env o d _ _ (by simpa using h0)
  · split at h
    · rename_i h1
      cases h
      exact demError_fail_has env o d _ _ (by simpa using h1)
    · cases h

theorem fixedLoop_returned_flag (env : Env) (o d : Vec3) (k : Nat) :
    ∀ (newPt : Vec3) (tol : ℚ) (run : Run) (b : Bool),
      (fixedLoop env o d k newPt tol run).1 = Outcome.returned b →
      (fixedLoop env o d k newPt tol run).2.st.hasIntersection = b := by
  induction k with
  | zero =>
    intro newPt tol run b h
    simp only [fixedLoop] at h ⊢
    cases h
    rfl
  | succ k ih =>
    intro newPt tol run b
    simp only [fixedLoop]
    split
    · intro h; cases h
    · split
      · intro h; cases h
      · split
        · split
          · intro h; cases h; rfl
          · exact ih _ _ _ b
        · exact ih _ _ _ b

/-- Whenever the first sphere intersection hits and `intersectSurface`
returns, the returned boolean is the `hasIntersection` flag after the call. -/
theorem intersectSurface_returned_flag_of_hit (env : Env) (o d : Vec3) (st : ShapeState)
    (p : Vec3) (b : Bool)
    (hp : env.surfpt o d (initialRadius env o st) (initialRadius env o st)
      (initialRadius env o st) = some p)
    (h : (intersectSurface env o d st).1 = Outcome.returned b) :
    (intersectSurface env o d st).2.st.hasIntersection = b := by
  cases hs : secantStage env o d p
      ⟨(findDemValue env st).2, [Call.initSurfpt (initialRadius env o st)]⟩ with
  | inl run1 =>
    have e : intersectSurface env o d st = (Outcome.returned false, run1) := by
      simp only [intersectSurface, hp, hs]
    rw [e] at h ⊢
    cases h
    exact secantStage_inl_has env o d p _ run1 hs
  | inr s =>
    have e : intersectSurface env o d st = fixedLoop env o d 100 p s.tol s.run := by
      simp only [intersectSurface, hp, hs]
    rw [e] at h ⊢
    exact fixedLoop_returned_flag env o d 100 p s.tol s.run b h

end DemShape

namespace DemShape

/-! ## The order of the probes of `findDemValue` -/

theorem probeAxis_sorted (count spacing : Int) (h : 0 < spacing) :
    (probeAxis count spacing).Pairwise (fun a b => a < b) := by
  unfold probeAxis
  apply List.Pairwise.filter
  rw [List.pairwise_map]
  refine (List.pairwise_lt_range _).imp ?_
  intro a b hab
  have : (a : Int) < (b : Int) := by exact_mod_cast hab
  nlinarith

/-- The probe positions are visited sample by sample, and by increasing line
within a sample. -/
theorem probePositions_sorted (env : Env) :
    (probePositions env).Pairwise
      (fun a b => a.1 < b.1 ∨ (a.1 = b.1 ∧ a.2 < b.2)) := by
  have hs : (0 : Int) < max (env.sampleCount / 6) 1 := lt_of_lt_of_le one_pos (le_max_right _ _)
  have hl : (0 : Int) < max (env.lineCount / 6) 1 := lt_of_lt_of_le one_pos (le_max_right _ _)
  unfold probePositions
  rw [List.pairwise_flatMap]
  constructor
  · intro s _
    rw [List.pairwise_map]
    exact (probeAxis_sorted _ _ hl).imp (fun h => Or.inr ⟨rfl, h⟩)
  · refine (probeAxis_sorted _ _ hs).imp ?_
    intro a b hab x hx y hy
    obtain ⟨_, _, rfl⟩ := List.mem_map.mp hx
    obtain ⟨_, _, rfl⟩ := List.mem_map.mp hy
    exact Or.inl hab

/-- In a list sorted by `R`, a search finds the value at an element all of
whose `R`-predecessors give nothing. -/
theorem findSome?_of_first {α β : Type} (R : α → α → Prop) (f : α → Option β) :
    ∀ (l : List α) (x : α) (v : β), l.Pairwise R → x ∈ l → f x = some v →
      (∀ y ∈ l, R y x → f y = none) → l.findSome? f = some v := by
  intro l
  induction l with
  | nil => intro x v _ hx; cases hx
  | cons a l ih =>
    intro x v hp hx hv hmin
    rw [List.pairwise_cons] at hp
    rw [List.findSome?_cons]
    rcases List.mem_cons.mp hx with rfl | hxl
    · rw [hv]
    · have ha : f a = none := hmin a (List.mem_cons_self _ _) (hp.1 x hxl)
      rw [ha]
      exact ih x v hp.2 hxl hv (fun y hy => hmin y (List.mem_cons_of_mem _ hy))

end DemShape

namespace DemShape

/-! ## Vectors of magnitude zero -/

theorem vnorm_vzero (env : Env) : vnorm env vzero = 0 := by
  simp [vnorm, maxAbs, vzero]

theorem unorm_vzero (env : Env) : unorm env vzero = (vzero, 0) := by
  simp [unorm, vnorm_vzero]

theorem vcrss_vzero_left (v : Vec3) : vcrss vzero v = vzero := by
  simp [vcrss, vzero]

theorem vcrss_vzero_right (v : Vec3) : vcrss v vzero = vzero := by
  simp [vcrss, vzero]

theorem vcrss_vscaleInv (v1 v2 : Vec3) (m1 m2 : ℚ) (h : vcrss v1 v2 = vzero) :
    vcrss (vscaleInv v1 m1) (vscaleInv v2 m2) = vzero := by
  simp only [vcrss, vzero, Vec3.mk.injEq] at h
  obtain ⟨hx, hy, hz⟩ := h
  simp only [vcrss, vscaleInv, vzero, Vec3.mk.injEq, div_mul_div_comm, ← sub_div, hx, hy, hz,
    zero_div, and_self]

/-- The unit cross product of two vectors whose cross product is zero is the
zero vector. -/
theorem ucrss_of_vcrss_zero (env : Env) (v1 v2 : Vec3) (h : vcrss v1 v2 = vzero) :
    ucrss env v1 v2 = vzero := by
  have hc : vcrss (if maxAbs v1 ≠ 0 then vscaleInv v1 (maxAbs v1) else vzero)
      (if maxAbs v2 ≠ 0 then vscaleInv v2 (maxAbs v2) else vzero) = vzero := by
    split
    · split
      · exact vcrss_vscaleInv v1 v2 _ _ h
      · exact vcrss_vzero_right _
    · exact vcrss_vzero_left _
  simp only [ucrss, hc, vnorm_vzero, gt_iff_lt, lt_self_iff_false, if_false]

theorem vdot_vzero_left (v : Vec3) : vdot vzero v = 0 := by
  simp [vdot, vzero]

theorem vdot_vminus_left (a b : Vec3) : vdot (vminus a) b = -vdot a b := by
  simp only [vdot, vminus]
  ring

/-- A neighbor list of one, two or three points makes `calculateLocalNormal`
read beyond the end of the list. -/
theorem calculateLocalNormal_short (env : Env) (nb : List Vec3) (st : ShapeState)
    (h0 : 0 < nb.length) (h4 : nb.length < 4) :
    calculateLocalNormal env nb st = LocalNormalResult.outOfRange := by
  match nb, h0, h4 with
  | [_], _, _ => rfl
  | [_, _], _, _ => rfl
  | [_, _, _], _, _ => rfl
  | _ :: _ :: _ :: _ :: _, _, h => simp at h; omega

end DemShape

namespace DemShape

/-! ## The iterations of the secant loop -/

/-- The secant stage is Init followed by the loop of at most 100 iterations. -/
theorem secantStage_eq_init (env : Env) (o d p : Vec3) (run : Run) :
    secantStage env o d p run =
      match secantInit env o d p run with
      | Sum.inl r => Sum.inl r
      | Sum.inr (v, r) => Sum.inr (secantLoop env o d 100 v r) := by
  simp only [secantStage, secantInit]
  split
  · rfl
  · split <;> rfl

theorem demError_consistent (env : Env) (o d : Vec3) (t : ℚ) (run : Run)
    (h : (demError env o d t run).success = true) :
    (demError env o d t run).point = rayPoint o d t ∧
      ∃ R, radiusAt env (rayPoint o d t) = some R ∧
        (demError env o d t run).value = norm3 env (rayPoint o d t) - R := by
  cases hr : radiusAt env (rayPoint o d t) with
  | none => simp [demError, hr] at h
  | some R => exact ⟨by simp [demError, hr], R, rfl, by simp [demError, hr]⟩

theorem secantInit_consistent (env : Env) (o d p : Vec3) (run : Run) (v : SecantVars) (r : Run)
    (h : secantInit env o d p run = Sum.inr (v, r)) : v.Consistent env o d := by
  simp only [secantInit] at h
  split at h
  · cases h
  · split at h
    · cases h
    · rename_i h1
      cases h
      exact demError_consistent env o d _ _ (by simpa using h1)

theorem secantStep_consistent (env : Env) (o d : Vec3) (v : SecantVars) (run : Run)
    (v1 : SecantVars) (run1 : Run) (h : secantStep env o d v run = Sum.inr (v1, run1)) :
    v1.Consistent env o d := by
  simp only [secantStep] at h
  split at h
  · cases h
  · split at h
    · cases h
    · split at h
      · rename_i h1
        cases h
        exact demError_consistent env o d _ _ h1
      · cases h

theorem secantTrace_consistent (env : Env) (o d : Vec3) (n : Nat) :
    ∀ (v : SecantVars) (run : Run), v.Consistent env o d →
      ∀ w ∈ secantTrace env o d n v run, w.1.Consistent env o d := by
  induction n with
  | zero => intro v run _ w hw; simp [secantTrace] at hw
  | succ n ih =>
    intro v run hv w hw
    simp only [secantTrace, List.mem_cons] at hw
    rcases hw with rfl | hw
    · exact hv
    · cases hs : secantStep env o d v run with
      | inl s => simp [hs] at hw
      | inr vr =>
        obtain ⟨v1, run1⟩ := vr
        simp only [hs] at hw
        exact ih v1 run1 (secantStep_consistent env o d v run v1 run1 hs) w hw

/-- An iteration leaves the loop as converged exactly when the two-stage test
passes, and it then stores the window's point without evaluating anything. -/
theorem secantStep_converged (env : Env) (o d : Vec3) (v : SecantVars) (run : Run) :
    ((∃ s, secantStep env o d v run = Sum.inl s ∧ s.converged = true) ↔
      (|v.f1| * 1000 < v.tol ∧ |v.f1| * 1000 < env.resolution v.point / 100)) ∧
    ∀ s, secantStep env o d v run = Sum.inl s → s.converged = true →
      s.run.st.point = some v.point ∧ s.run.st.hasIntersection = true ∧ s.run.log = run.log := by
  by_cases h1 : |v.f1| * 1000 < v.tol
  · by_cases h2 : |v.f1| * 1000 < env.resolution v.point / 100
    · have e : secantStep env o d v run =
          Sum.inl ⟨true, env.resolution v.point / 100,
            (run.setPoint v.point).setHasIntersection true⟩ := by
        simp [secantStep, secantTest, h1, h2]
      rw [e]
      refine ⟨⟨fun _ => ⟨h1, h2⟩, fun _ => ⟨_, rfl, rfl⟩⟩, ?_⟩
      intro s hs _
      cases hs
      exact ⟨rfl, rfl, rfl⟩
    · have hc : secantTest env v run = ⟨false, env.resolution v.point / 100,
          run.setPoint v.point⟩ := by
        simp [secantTest, h1, h2]
      have key : ∀ s, secantStep env o d v run = Sum.inl s → s.converged = false := by
        intro s hs
        simp only [secantStep, hc] at hs
        split at hs
        · rename_i hx; simp at hx
        · split at hs
          · cases hs; rfl
          · split at hs
            · cases hs
            · cases hs; rfl
      refine ⟨⟨fun ⟨s, hs, hcv⟩ => ?_, fun h => absurd h.2 h2⟩, ?_⟩
      · rw [key s hs] at hcv; cases hcv
      · intro s hs hcv
        rw [key s hs] at hcv; cases hcv
  · have hc : secantTest env v run = ⟨false, v.tol, run⟩ := by
      simp [secantTest, h1]
    have key : ∀ s, secantStep env o d v run = Sum.inl s → s.converged = false := by
      intro s hs
      simp only [secantStep, hc] at hs
      split at hs
      · rename_i hx; simp at hx
      · split at hs
        · cases hs; rfl
        · split at hs
          · cases hs
          · cases hs; rfl
    refine ⟨⟨fun ⟨s, hs, hcv⟩ => ?_, fun h => absurd h.1 h1⟩, ?_⟩
    · rw [key s hs] at hcv; cases hcv
    · intro s hs hcv
      rw [key s hs] at hcv; cases hcv

end DemShape

namespace DemShape

/-! ## The iterations of the fixed-point loop -/

/-- The fixed-point loop with an iteration left runs `fixedStep` and goes
on with one iteration less. -/
theorem fixedLoop_succ (env : Env) (o d : Vec3) (k : Nat) (newPt : Vec3) (tol : ℚ) (run : Run) :
    fixedLoop env o d (k + 1) newPt tol run =
      match fixedStep env o d newPt tol run with
      | Sum.inl res => res
      | Sum.inr (p, tol1, run1) => fixedLoop env o d k p tol1 run1 := by
  simp only [fixedLoop, fixedStep]
  split
  · rfl
  · split
    · rfl
    · split
      · split <;> rfl
      · rfl

theorem fixedStep_of_accepts (env : Env) (o d cur : Vec3) (tol r : ℚ) (q : Vec3) (run : Run)
    (h : FixedAccepts env o d cur tol r q) :
    ∃ run1, fixedStep env o d cur tol run = Sum.inl (Outcome.returned true, run1) ∧
      run1.st.point = some q ∧ run1.st.hasIntersection = true := by
  obtain ⟨h1, h2, h3, h4⟩ := h
  simp only [fixedStep, h1, h2, h3, h4, if_true]
  exact ⟨_, rfl, rfl, rfl⟩

theorem fixedStep_inl_returned (env : Env) (o d cur : Vec3) (tol : ℚ) (run run1 : Run) (b : Bool)
    (h : fixedStep env o d cur tol run = Sum.inl (Outcome.returned b, run1)) :
    b = true ∧ ∃ r q, FixedAccepts env o d cur tol r q ∧
      run1.st.point = some q ∧ run1.st.hasIntersection = true := by
  simp only [fixedStep] at h
  split at h
  · cases h
  · rename_i r hr
    split at h
    · cases h
    · rename_i q hq
      split at h
      · rename_i h3
        split at h
        · rename_i h4
          cases h
          exact ⟨rfl, r, q, ⟨hr, hq, h3, h4⟩, rfl, rfl⟩
        · cases h
      · cases h

theorem fixedStep_inr_not_accepts (env : Env) (o d cur : Vec3) (tol : ℚ) (run : Run)
    (x : Vec3 × ℚ × Run) (h : fixedStep env o d cur tol run = Sum.inr x) (r : ℚ) (q : Vec3) :
    ¬ FixedAccepts env o d cur tol r q := by
  intro ha
  obtain ⟨run1, e, _⟩ := fixedStep_of_accepts env o d cur tol r q run ha
  rw [e] at h
  cases h

theorem fixedStep_inl_exited (env : Env) (o d cur : Vec3) (tol : ℚ) (run run1 : Run) (c : Int)
    (h : fixedStep env o d cur tol run = Sum.inl (Outcome.exited c, run1)) (r : ℚ) (q : Vec3) :
    ¬ FixedAccepts env o d cur tol r q := by
  intro ha
  obtain ⟨run2, e, _⟩ := fixedStep_of_accepts env o d cur tol r q run ha
  rw [e] at h
  cases h

/-- The fixed-point loop returns true exactly when one of the iterations it
executes passes the acceptance test, and it then leaves the new point of that
iteration in the state. -/
theorem fixedLoop_true (env : Env) (o d : Vec3) (k : Nat) :
    ∀ (newPt : Vec3) (tol : ℚ) (run : Run),
      ((fixedLoop env o d k newPt tol run).1 = Outcome.returned true ↔
        ∃ e ∈ fixedTrace env o d k newPt tol run, ∃ r q, FixedAccepts env o d e.1 e.2.1 r q) ∧
      ((fixedLoop env o d k newPt tol run).1 = Outcome.returned true →
        ∃ e ∈ fixedTrace env o d k newPt tol run, ∃ r q, FixedAccepts env o d e.1 e.2.1 r q ∧
          (fixedLoop env o d k newPt tol run).2.st.point = some q ∧
          (fixedLoop env o d k newPt tol run).2.st.hasIntersection = true) := by
  induction k with
  | zero =>
    intro newPt tol run
    have h : (fixedLoop env o d 0 newPt tol run).1 = Outcome.returned false := rfl
    simp [h, fixedTrace]
  | succ k ih =>
    intro newPt tol run
    rw [fixedLoop_succ]
    cases hs : fixedStep env o d newPt tol run with
    | inl res =>
      obtain ⟨oc, run1⟩ := res
      simp only [fixedTrace, hs, List.mem_singleton, exists_eq_left]
      cases oc with
      | exited c =>
        have hn := fixedStep_inl_exited env o d newPt tol run run1 c hs
        constructor
        · constructor
          · intro h; cases h
          · rintro ⟨r, q, ha⟩; exact absurd ha (hn r q)
        · intro h; cases h
      | returned b =>
        obtain ⟨hb, r, q, ha, hpt, hhas⟩ := fixedStep_inl_returned env o d newPt tol run run1 b hs
        subst hb
        exact ⟨⟨fun _ => ⟨r, q, ha⟩, fun _ => rfl⟩, fun _ => ⟨r, q, ha, hpt, hhas⟩⟩
    | inr x =>
      obtain ⟨p, tol1, run1⟩ := x
      have hn := fixedStep_inr_not_accepts env o d newPt tol run _ hs
      obtain ⟨ih1, ih2⟩ := ih p tol1 run1
      simp only [fixedTrace, hs, List.mem_cons]
      constructor
      · rw [ih1]
        constructor
        · rintro ⟨e, he, h⟩; exact ⟨e, Or.inr he, h⟩
        · rintro ⟨e, he | he, r, q, h⟩
          · subst he; exact absurd h (hn r q)
          · exact ⟨e, he, r, q, h⟩
      · intro h
        obtain ⟨e, he, h1⟩ := ih2 h
        exact ⟨e, Or.inr he, h1⟩

theorem fixedTrace_length (env : Env) (o d : Vec3) (k : Nat) :
    ∀ (newPt : Vec3) (tol : ℚ) (run : Run), (fixedTrace env o d k newPt tol run).length ≤ k := by
  induction k with
  | zero => intro newPt tol run; simp [fixedTrace]
  | succ k ih =>
    intro newPt tol run
    simp only [fixedTrace, List.length_cons]
    cases hs : fixedStep env o d newPt tol run with
    | inl res => simp
    | inr x =>
      obtain ⟨p, tol1, run1⟩ := x
      simp only
      have := ih p tol1 run1
      omega

end DemShape

namespace DemShape

/-- The first call that the fixed-point loop logs is the lookup at the latitude
and longitude of the point it is entered with. -/
theorem fixedLoop_first_lookup (env : Env) (o d : Vec3) (k : Nat) (newPt : Vec3) (tol : ℚ)
    (run : Run) :
    ∃ l, (fixedLoop env o d (k + 1) newPt tol run).2.log =
      run.log ++ Call.fixedLookup (latLon env newPt).1 (latLon env newPt).2 :: l := by
  simp only [fixedLoop]
  split
  · exact ⟨[], by simp⟩
  · rename_i r _
    split
    · exact ⟨[Call.fixedSurfpt r], by simp⟩
    · rename_i p _
      have key : ∀ (tol1 : ℚ) (run1 : Run),
          run1.log = run.log ++
            [Call.fixedLookup (latLon env newPt).1 (latLon env newPt).2, Call.fixedSurfpt r] →
          ∃ l, (fixedLoop env o d k p tol1 run1).2.log =
            run.log ++ Call.fixedLookup (latLon env newPt).1 (latLon env newPt).2 :: l := by
        intro tol1 run1 h1
        obtain ⟨l, e, _⟩ := fixedLoop_log env o d k p tol1 run1
        exact ⟨Call.fixedSurfpt r :: l, by rw [e, h1]; simp⟩
      split
      · split
        · exact ⟨[Call.fixedSurfpt r], by simp⟩
        · exact key _ _ (by simp)
      · exact key _ _ (by simp)

/-- The secant stage logs no fixed-point lookup. -/
theorem secantStage_inr_no_lookup (env : Env) (o d p : Vec3) (r : ℚ) (st : ShapeState)
    (s : SecantEnd)
    (hs : secantStage env o d p ⟨st, [Call.initSurfpt r]⟩ = Sum.inr s) :
    s.run.log.filter Call.isFixedLookup = [] := by
  obtain ⟨ts, _, hts⟩ := secantStage_log env o d p ⟨st, [Call.initSurfpt r]⟩
  rw [hs] at hts
  simp only [] at hts
  rw [hts, List.filter_append]
  have h2 : ∀ l : List ℚ, (l.map Call.demError).filter Call.isFixedLookup = [] := by
    intro l
    induction l with
    | nil => rfl
    | cons a l ih => simp [List.filter_cons, Call.isFixedLookup, ih]
  simp [h2, List.filter_cons, Call.isFixedLookup]

end DemShape

namespace DemShape

/-! ## The tolerance after the convergence test of a secant iteration -/

theorem secantTest_tol (env : Env) (v : SecantVars) (run : Run) :
    (secantTest env v run).tol =
      if |v.f1| * 1000 < v.tol then env.resolution v.point / 100 else v.tol := by
  simp only [secantTest]
  split
  · split <;> rfl
  · rfl

theorem secantTest_converged (env : Env) (v : SecantVars) (run : Run) :
    (secantTest env v run).converged = true ↔
      (|v.f1| * 1000 < v.tol ∧ |v.f1| * 1000 < env.resolution v.point / 100) := by
  simp only [secantTest]
  split
  · rename_i h1
    split
    · rename_i h2; simp [h1, h2]
    · rename_i h2; simp [h2]
  · rename_i h1; simp [h1]

/-- The iteration that does not leave the loop carries the tolerance of its
convergence test and the window shifted by the secant update. -/
theorem secantStep_inr (env : Env) (o d : Vec3) (v : SecantVars) (run : Run)
    (v1 : SecantVars) (run1 : Run) (h : secantStep env o d v run = Sum.inr (v1, run1)) :
    (secantTest env v run).converged = false ∧
    ¬ (v.f1 = v.f0 ∧ |v.f1| * 1000 ≥ (secantTest env v run).tol) ∧
    v1.t0 = v.t1 ∧ v1.f0 = v.f1 ∧ v1.t1 = secantUpdate v ∧
    v1.tol = (secantTest env v run).tol ∧
    v1.f1 = (demError env o d (secantUpdate v) (secantTest env v run).run).value ∧
    (demError env o d (secantUpdate v) (secantTest env v run).run).success = true := by
  simp only [secantStep] at h
  split at h
  · cases h
  · rename_i hc
    split at h
    · cases h
    · rename_i hst
      split at h
      · rename_i hsucc
        cases h
        exact ⟨by simpa using hc, hst, rfl, rfl, rfl, rfl, rfl, hsucc⟩
      · cases h

/-- The iteration whose test fails, that does not stagnate and whose
evaluation succeeds, does not leave the loop. -/
theorem secantStep_continues (env : Env) (o d : Vec3) (v : SecantVars) (run : Run)
    (hc : (secantTest env v run).converged = false)
    (hst : ¬ (v.f1 = v.f0 ∧ |v.f1| * 1000 ≥ (secantTest env v run).tol))
    (hsucc : (demError env o d (secantUpdate v) (secantTest env v run).run).success = true) :
    secantStep env o d v run =
      Sum.inr (⟨v.t1, v.f1, secantUpdate v,
        (demError env o d (secantUpdate v) (secantTest env v run).run).value,
        (secantTest env v run).tol,
        (demError env o d (secantUpdate v) (secantTest env v run).run).point⟩,
        (demError env o d (secantUpdate v) (secantTest env v run).run).run) := by
  simp only [secantStep, hc, hst, hsucc, if_false, if_true, Bool.false_eq_true]

theorem demError_value (env : Env) (o d : Vec3) (t : ℚ) (run : Run) (R : ℚ)
    (h : radiusAt env (rayPoint o d t) = some R) :
    (demError env o d t run).success = true ∧
    (demError env o d t run).value = norm3 env (rayPoint o d t) - R ∧
    (demError env o d t run).point = rayPoint o d t := by
  simp [demError, h]

/-- When the two errors of the window are equal, the iteration leaves the
loop without evaluating the error function. -/
theorem secantStep_equal_errors (env : Env) (o d : Vec3) (v : SecantVars) (run : Run)
    (h : v.f1 = v.f0) : ∃ s, secantStep env o d v run = Sum.inl s ∧ s.run.log = run.log := by
  by_cases hc : (secantTest env v run).converged = true
  · exact ⟨secantTest env v run, by simp [secantStep, hc], secantTest_log env v run⟩
  · refine ⟨⟨false, (secantTest env v run).tol, (secantTest env v run).run⟩, ?_,
      secantTest_log env v run⟩
    have hge : |v.f1| * 1000 ≥ (secantTest env v run).tol := by
      rw [secantTest_converged] at hc
      rw [secantTest_tol]
      by_cases h1 : |v.f1| * 1000 < v.tol
      · simp only [h1, if_true]
        exact not_lt.mp (fun h2 => hc ⟨h1, h2⟩)
      · simp only [h1, if_false]
        exact not_lt.mp h1
    have hst : v.f1 = v.f0 ∧ |v.f1| * 1000 ≥ (secantTest env v run).tol := ⟨h, hge⟩
    simp only [secantStep]
    rw [if_neg hc, if_pos hst]

end DemShape

namespace DemShape

theorem secantIterations_consistent (env : Env) (o d p : Vec3) (run : Run) (v : SecantVars)
    (r : Run) (hmem : (v, r) ∈ secantIterations env o d p run) : v.Consistent env o d := by
  unfold secantIterations at hmem
  cases hi : secantInit env o d p run with
  | inl r0 => simp [hi] at hmem
  | inr vr =>
    obtain ⟨v0, r0⟩ := vr
    simp only [hi] at hmem
    exact secantTrace_consistent env o d 100 v0 r0
      (secantInit_consistent env o d p run v0 r0 hi) (v, r) hmem

/-- The first window of the secant loop. -/
theorem secantInit_window (env : Env) (o d p : Vec3) (run : Run) (v0 : SecantVars) (r0 : Run)
    (h : secantInit env o d p run = Sum.inr (v0, r0)) :
    v0.t0 = rayParameter o d p ∧ v0.t1 = rayParameter o d p + 1 / 10000 ∧
    v0.tol = env.resolution p / 100 ∧
    (∃ R0, radiusAt env (rayPoint o d v0.t0) = some R0 ∧
      v0.f0 = norm3 env (rayPoint o d v0.t0) - R0) ∧
    (∃ R1, radiusAt env (rayPoint o d v0.t1) = some R1 ∧
      v0.f1 = norm3 env (rayPoint o d v0.t1) - R1) := by
  simp only [secantInit] at h
  split at h
  · cases h
  · rename_i h0
    split at h
    · cases h
    · rename_i h1
      cases h
      refine ⟨rfl, rfl, rfl, ?_, ?_⟩
      · exact (demError_consistent env o d _ _ (by simpa using h0)).2
      · exact (demError_consistent env o d _ _ (by simpa using h1)).2

end DemShape

namespace DemShape

/-- The first error evaluation of the secant stage is at the ray parameter of
the sphere intersection point. -/
theorem secantStage_first_call (env : Env) (o d p : Vec3) (run : Run) :
    ∃ l : List Call,
      match secantStage env o d p run with
      | Sum.inl run1 => run1.log = run.log ++ Call.demError (rayParameter o d p) :: l
      | Sum.inr s => s.run.log = run.log ++ Call.demError (rayParameter o d p) :: l := by
  cases h0 : (demError env o d (rayParameter o d p)
      ((run.setPoint p).setHasIntersection true)).success
  · refine ⟨[], ?_⟩
    simp [secantStage, h0, demError_log]
  · cases h1 : (demError env o d (rayParameter o d p + 1 / 10000)
        (demError env o d (rayParameter o d p)
          ((run.setPoint p).setHasIntersection true)).run).success
    · refine ⟨[Call.demError (rayParameter o d p + 1 / 10000)], ?_⟩
      simp only [secantStage, h0, h1, demError_log, Bool.not_true, Bool.not_false,
        Bool.false_eq_true, if_false, if_true, List.append_assoc, List.map,
        List.singleton_append, Run.setHasIntersection_log, Run.setPoint_log]
    · obtain ⟨ts, e1, _⟩ := secantLoop_log env o d 100
        ⟨rayParameter o d p,
          (demError env o d (rayParameter o d p)
            ((run.setPoint p).setHasIntersection true)).value,
          rayParameter o d p + 1 / 10000,
          (demError env o d (rayParameter o d p + 1 / 10000)
            (demError env o d (rayParameter o d p)
              ((run.setPoint p).setHasIntersection true)).run).value,
          env.resolution p / 100,
          (demError env o d (rayParameter o d p + 1 / 10000)
            (demError env o d (rayParameter o d p)
              ((run.setPoint p).setHasIntersection true)).run).point⟩
        (demError env o d (rayParameter o d p + 1 / 10000)
          (demError env o d (rayParameter o d p)
            ((run.setPoint p).setHasIntersection true)).run).run
      refine ⟨Call.demError (rayParameter o d p + 1 / 10000) :: ts.map Call.demError, ?_⟩
      simp only [secantStage, h0, h1, e1, demError_log, Bool.not_true, Bool.not_false,
        Bool.false_eq_true, if_false, if_true, List.append_assoc, List.map,
        List.singleton_append, Run.setHasIntersection_log, Run.setPoint_log]
      rfl

/-- After the first sphere intersection at `p`, the next logged call of
`intersectSurface` is the error evaluation at the ray parameter of `p`. -/
theorem intersectSurface_first_call (env : Env) (o d p : Vec3) (st : ShapeState)
    (hp : env.surfpt o d (initialRadius env o st) (initialRadius env o st)
      (initialRadius env o st) = some p) :
    ∃ l : List Call, (intersectSurface env o d st).2.log =
      Call.initSurfpt (initialRadius env o st) :: Call.demError (rayParameter o d p) :: l := by
  obtain ⟨l, hl⟩ := secantStage_first_call env o d p
    ⟨(findDemValue env st).2, [Call.initSurfpt (initialRadius env o st)]⟩
  simp only [intersectSurface, hp]
  cases hs : secantStage env o d p
      ⟨(findDemValue env st).2, [Call.initSurfpt (initialRadius env o st)]⟩ with
  | inl run1 =>
    rw [hs] at hl
    exact ⟨l, by simpa using hl⟩
  | inr s =>
    rw [hs] at hl
    obtain ⟨l2, e, _⟩ := fixedLoop_log env o d 100 p s.tol s.run
    refine ⟨l ++ l2, ?_⟩
    simp only at hl
    simp only [e, hl]
    simp

/-- A non-zero vector has a non-zero squared length. -/
theorem vdot_self_ne_zero (d : Vec3) (hd : d ≠ vzero) : vdot d d ≠ 0 := by
  intro h
  apply hd
  unfold vdot at h
  have hx := mul_self_nonneg d.x
  have hy := mul_self_nonneg d.y
  have hz := mul_self_nonneg d.z
  have ex : d.x = 0 := mul_self_eq_zero.mp (by linarith)
  have ey : d.y = 0 := mul_self_eq_zero.mp (by linarith)
  have ez : d.z = 0 := mul_self_eq_zero.mp (by linarith)
  cases d
  simp only at ex ey ez
  simp only [vzero, ex, ey, ez]

end DemShape

namespace DemShape

theorem probeAxis_mem (n sp v : Int) :
    v ∈ probeAxis n sp ↔ (∃ k : Nat, k < n.toNat + 1 ∧ sp * ((k : Int) + 1) = v) ∧ v ≤ n - sp := by
  simp only [probeAxis, List.mem_filter, List.mem_map, List.mem_range, decide_eq_true_eq]

theorem probeAxis_nodup (n sp : Int) (hsp : 0 < sp) : (probeAxis n sp).Nodup := by
  unfold probeAxis
  apply List.Nodup.filter
  apply List.Nodup.map _ (List.nodup_range _)
  intro a b h
  have h1 : ((a : Int) + 1) = (b : Int) + 1 := mul_left_cancel₀ (ne_of_gt hsp) h
  omega

/-- Every value of the loop variable lies between the spacing and the count
minus the spacing. -/
theorem probeAxis_bounds (n sp v : Int) (hsp : 0 < sp) (hv : v ∈ probeAxis n sp) :
    sp ≤ v ∧ v ≤ n - sp := by
  obtain ⟨⟨k, _, e⟩, hle⟩ := (probeAxis_mem n sp v).mp hv
  refine ⟨?_, hle⟩
  rw [← e]
  have hk : (1 : Int) ≤ (k : Int) + 1 := by omega
  calc sp = sp * 1 := (mul_one sp).symm
    _ ≤ sp * ((k : Int) + 1) := mul_le_mul_of_nonneg_left hk hsp.le

/-- Between 5 and 10 values of the loop variable when the count is at least 6
spacings and below 12 spacings. -/
theorem probeAxis_length (n sp : Int) (hsp : 0 < sp) (h6 : 6 * sp ≤ n) (h12 : n < 12 * sp) :
    5 ≤ (probeAxis n sp).length ∧ (probeAxis n sp).length ≤ 10 := by
  have hinj : Function.Injective (fun (k : Nat) => sp * ((k : Int) + 1)) := by
    intro a b h
    have h1 : ((a : Int) + 1) = (b : Int) + 1 := mul_left_cancel₀ (ne_of_gt hsp) h
    omega
  constructor
  · have hsub : (List.range 5).map (fun (k : Nat) => sp * ((k : Int) + 1)) ⊆ probeAxis n sp := by
      intro v hv
      obtain ⟨k, hk, e⟩ := List.mem_map.mp hv
      have hk5 : k < 5 := List.mem_range.mp hk
      rw [probeAxis_mem]
      refine ⟨⟨k, by omega, e⟩, ?_⟩
      rw [← e]
      have hk1 : (k : Int) + 1 ≤ 5 := by omega
      have : sp * ((k : Int) + 1) ≤ sp * 5 := mul_le_mul_of_nonneg_left hk1 hsp.le
      omega
    have hlen := (List.subperm_of_subset
      (List.Nodup.map hinj (List.nodup_range 5)) hsub).length_le
    simpa using hlen
  · have hsub : probeAxis n sp ⊆ (List.range 10).map (fun (k : Nat) => sp * ((k : Int) + 1)) := by
      intro v hv
      obtain ⟨⟨k, _, e⟩, hle⟩ := (probeAxis_mem n sp v).mp hv
      refine List.mem_map.mpr ⟨k, List.mem_range.mpr ?_, e⟩
      by_contra hk
      have hk1 : (11 : Int) ≤ (k : Int) + 1 := by omega
      have : sp * 11 ≤ sp * ((k : Int) + 1) := mul_le_mul_of_nonneg_left hk1 hsp.le
      omega
    have hlen := (List.subperm_of_subset (probeAxis_nodup n sp hsp) hsub).length_le
    simpa using hlen

/-- The spacing of an axis with at least 6 positions. -/
theorem probe_spacing (n : Int) (hn : 6 ≤ n) :
    max (n / 6) 1 = n / 6 ∧ 0 < n / 6 ∧ 6 * (n / 6) ≤ n ∧ n < 12 * (n / 6) := by
  refine ⟨max_eq_left (by omega), by omega, by omega, by omega⟩

theorem probePositions_mem (env : Env) (s l : Int) :
    (s, l) ∈ probePositions env ↔
      s ∈ probeAxis env.sampleCount (max (env.sampleCount / 6) 1) ∧
      l ∈ probeAxis env.lineCount (max (env.lineCount / 6) 1) := by
  simp only [probePositions, List.mem_flatMap, List.mem_map, Prod.mk.injEq]
  constructor
  · rintro ⟨a, ha, b, hb, rfl, rfl⟩
    exact ⟨ha, hb⟩
  · rintro ⟨hs, hl⟩
    exact ⟨s, hs, l, hl, rfl, rfl⟩

end DemShape

namespace DemShape

end DemShape

namespace DemShape

end DemShape

/-! ## The claims -/

namespace DemShape

/-- C1 (the code departs from the claim): `intersectSurface` does not always
hand a boolean back.  For a ray that hits the 5 km sphere of the first guess
but passes 4.95 km from the center of a body whose DEM radius is 4.9 km, the
sphere re-intersection of the first fixed-point iteration misses and the call
ends the process with `exit(1)` (line 434); for a DEM that ends at longitude
50 degrees, the lookup of the second fixed-point iteration finds no data and
the call ends the process with `exit(1)` (line 404). -/
theorem intersectSurface_exits_process :
    (intersectSurface envLimb obsLimb lookMinusX freshState).1 = Outcome.exited 1 ∧
    (intersectSurface envLimb obsLimb lookMinusX freshState).2.log.getLast? =
      some (Call.fixedSurfpt (49 / 10)) ∧
    (intersectSurface envLimb obsLimb lookMinusX freshState).2.log.countP Call.isFixedSurfpt = 1 ∧
    (intersectSurface envEdge obsOffset lookMinusX freshState).1 = Outcome.exited 1 ∧
    (intersectSurface envEdge obsOffset lookMinusX freshState).2.log.getLast?.map
      (Call.lookupFails envEdge obsOffset lookMinusX) = some true ∧
    (intersectSurface envEdge obsOffset lookMinusX freshState).2.log.countP Call.isFixedLookup = 2 := by
  decide!

/-- C2 (the code departs from the claim): with a DEM without any data,
`localRadius` is invalid at every point, and for a ray that misses the sphere
of the first guess, called on a state whose `hasIntersection` is true,
`intersectSurface` returns false but `hasIntersection` is still true after the
call (the return of line 253 does not clear the flag). -/
theorem intersectSurface_noData_miss_keeps_flag :
    (∀ lat lon : ℚ, localRadius envNoData lat lon = none) ∧
    (intersectSurface envNoData obsA lookPlusX staleState).1 = Outcome.returned false ∧
    (intersectSurface envNoData obsA lookPlusX staleState).2.st.hasIntersection = true :=
  ⟨fun _ _ => rfl, by decide!, by decide!⟩

/-- C3 (the code departs from the claim): when the first sphere intersection
misses, `intersectSurface` returns false without touching `hasIntersection`;
called on a state whose flag is true, the returned boolean (false) differs
from the flag held when the call returns (true). -/
theorem intersectSurface_miss_returns_stale_flag :
    (intersectSurface envA obsA lookPlusX staleState).1 = Outcome.returned false ∧
    (intersectSurface envA obsA lookPlusX staleState).2.st.hasIntersection = true := by
  decide!

/-- C5: idempotence.  Calling `intersectSurface` again with the same observer
and look direction, on the state left by the first call and against the same
environment, ends the same way and leaves the same state (in particular the
same stored intersection point) and the same call log as the first call. -/
theorem intersectSurface_idempotent (env : Env) (o d : Vec3) (st : ShapeState) :
    intersectSurface env o d (intersectSurface env o d st).2.st = intersectSurface env o d st := by
  apply intersectSurface_congr env o d st _ (intersectSurface_rest env o d st)
  intro hs
  simp only [intersectSurface, hs]

/-- C9: `intersectSurface` is a total function (every call ends, with a return
or with `exit`), and on every input the secant stage calls `demError` at most
102 times, and the fixed-point stage makes at most 100 `localRadius` lookups
and at most 100 sphere re-intersections. -/
theorem intersectSurface_call_bounds (env : Env) (o d : Vec3) (st : ShapeState) :
    (intersectSurface env o d st).2.log.countP Call.isDemError ≤ 102 ∧
    (intersectSurface env o d st).2.log.countP Call.isFixedLookup ≤ 100 ∧
    (intersectSurface env o d st).2.log.countP Call.isFixedSurfpt ≤ 100 := by
  simp only [intersectSurface]
  split
  · simp [Call.isDemError, Call.isFixedLookup, Call.isFixedSurfpt]
  · rename_i p _
    obtain ⟨ts, hlen, hlog⟩ := secantStage_log env o d p
      ⟨(findDemValue env st).2, [Call.initSurfpt (initialRadius env o st)]⟩
    split
    · rename_i run1 hs
      rw [hs] at hlog
      simp only [] at hlog
      simp only [hlog, List.countP_append, countP_isDemError_map, countP_isFixedLookup_map,
        countP_isFixedSurfpt_map]
      simp [Call.isDemError, Call.isFixedLookup, Call.isFixedSurfpt]
      omega
    · rename_i s hs
      rw [hs] at hlog
      simp only [] at hlog
      obtain ⟨l, hl, c0, c1, c2, _⟩ := fixedLoop_log env o d 100 p s.tol s.run
      simp only [hl, hlog, List.countP_append, countP_isDemError_map, countP_isFixedLookup_map,
        countP_isFixedSurfpt_map, c0]
      simp [Call.isDemError, Call.isFixedLookup, Call.isFixedSurfpt]
      omega

/-- C7 (counterexample): with a DEM without data the first sphere intersection
of scenario A succeeds, the evaluation of `f0` fails, and `intersectSurface`
returns false without a single fixed-point iteration. -/
theorem secant_init_failure_skips_fixed_point :
    (envNoData.surfpt obsA lookMinusX (initialRadius envNoData obsA freshState)
      (initialRadius envNoData obsA freshState)
      (initialRadius envNoData obsA freshState)).isSome = true ∧
    (intersectSurface envNoData obsA lookMinusX freshState).1 = Outcome.returned false ∧
    (intersectSurface envNoData obsA lookMinusX freshState).2.log.countP Call.isFixedLookup = 0 := by
  decide!

/-- C7 (amended): when the first sphere intersection succeeds at `p` and the
DEM has data at the two points evaluated by Init of the secant stage, the
result of `intersectSurface` is the result of the fixed-point loop started at
`p` with 100 iterations left, however the secant loop ended, and at least one
fixed-point iteration is executed. -/
theorem fixed_point_runs_after_secant_loop (env : Env) (o d : Vec3) (st : ShapeState) (p : Vec3)
    (hp : env.surfpt o d (initialRadius env o st) (initialRadius env o st)
      (initialRadius env o st) = some p)
    (h0 : (radiusAt env (rayPoint o d (rayParameter o d p))).isSome = true)
    (h1 : (radiusAt env (rayPoint o d (rayParameter o d p + 1 / 10000))).isSome = true) :
    (∃ s : SecantEnd, intersectSurface env o d st = fixedLoop env o d 100 p s.tol s.run) ∧
    0 < (intersectSurface env o d st).2.log.countP Call.isFixedLookup := by
  obtain ⟨s, hs⟩ := secantStage_inr_of_data env o d p
    ⟨(findDemValue env st).2, [Call.initSurfpt (initialRadius env o st)]⟩ h0 h1
  have e : intersectSurface env o d st = fixedLoop env o d 100 p s.tol s.run := by
    simp only [intersectSurface, hp, hs]
  refine ⟨⟨s, e⟩, ?_⟩
  obtain ⟨l, hl, _, _, _, c⟩ := fixedLoop_log env o d 100 p s.tol s.run
  rw [e, hl, List.countP_append]
  have := c (by decide)
  omega

theorem fixed_point_runs_after_secant_loop_witness :
    (∃ s : SecantEnd, intersectSurface envA obsA lookMinusX freshState =
      fixedLoop envA obsA lookMinusX 100 ⟨3396, 0, 0⟩ s.tol s.run) ∧
    0 < (intersectSurface envA obsA lookMinusX freshState).2.log.countP Call.isFixedLookup :=
  fixed_point_runs_after_secant_loop envA obsA lookMinusX freshState ⟨3396, 0, 0⟩
    (by decide!) (by decide!) (by decide!)

/-- C8 (counterexample): for the DEM with a no-data hole between longitudes 50
and 62 degrees, the first secant update lands in the hole and its lookup finds
no sample, yet the fixed-point stage converges and `intersectSurface` returns
true with `hasIntersection` true. -/
theorem noData_in_secant_iteration_still_intersects :
    (intersectSurface envHole obsOffset lookMinusX freshState).2.log.any
      (Call.lookupFails envHole obsOffset lookMinusX) = true ∧
    (intersectSurface envHole obsOffset lookMinusX freshState).1 = Outcome.returned true ∧
    (intersectSurface envHole obsOffset lookMinusX freshState).2.st.hasIntersection = true := by
  decide!

/-- C8 (amended): when the first sphere intersection succeeds at `p` and the
DEM lookup of secant Init finds no sample, at the ray parameter `t0` of `p` or
at `t0 + 0.0001`, `intersectSurface` returns false and `hasIntersection` is
false after the call. -/
theorem noData_in_secant_init_fails (env : Env) (o d : Vec3) (st : ShapeState) (p : Vec3)
    (hp : env.surfpt o d (initialRadius env o st) (initialRadius env o st)
      (initialRadius env o st) = some p)
    (h : radiusAt env (rayPoint o d (rayParameter o d p)) = none ∨
      radiusAt env (rayPoint o d (rayParameter o d p + 1 / 10000)) = none) :
    (intersectSurface env o d st).1 = Outcome.returned false ∧
    (intersectSurface env o d st).2.st.hasIntersection = false := by
  obtain ⟨run1, hs, hhas⟩ := secantStage_inl_of_noData env o d p
    ⟨(findDemValue env st).2, [Call.initSurfpt (initialRadius env o st)]⟩ h
  have e : intersectSurface env o d st = (Outcome.returned false, run1) := by
    simp only [intersectSurface, hp, hs]
  rw [e]
  exact ⟨rfl, hhas⟩

theorem noData_in_secant_init_fails_witness :
    (intersectSurface envNoData obsA lookMinusX staleState).1 = Outcome.returned false ∧
    (intersectSurface envNoData obsA lookMinusX staleState).2.st.hasIntersection = false :=
  noData_in_secant_init_fails envNoData obsA lookMinusX staleState ⟨3396, 0, 0⟩
    (by decide!) (Or.inl (by decide!))

/-- C10: when the first sphere intersection succeeds at `p`, the secant stage
ends in any way `s` (converged or not) and the 100 iterations of the
fixed-point stage, entered with the tolerance left by the secant stage, all
run without passing the acceptance test, `intersectSurface` returns false and
`hasIntersection` is false after the call. -/
theorem fixed_point_exhausted_returns_false (env : Env) (o d : Vec3) (st : ShapeState)
    (p : Vec3) (s : SecantEnd)
    (hp : env.surfpt o d (initialRadius env o st) (initialRadius env o st)
      (initialRadius env o st) = some p)
    (hs : secantStage env o d p
      ⟨(findDemValue env st).2, [Call.initSurfpt (initialRadius env o st)]⟩ = Sum.inr s)
    (hrej : fixedRejects env o d 100 p s.tol = true) :
    (intersectSurface env o d st).1 = Outcome.returned false ∧
    (intersectSurface env o d st).2.st.hasIntersection = false := by
  have e : intersectSurface env o d st = fixedLoop env o d 100 p s.tol s.run := by
    simp only [intersectSurface, hp, hs]
  rw [e]
  exact fixedLoop_of_rejects env o d 100 p s.tol s.run hrej

theorem fixed_point_exhausted_returns_false_witness :
    rampSecantEnd.converged = true ∧
    fixedRejects envRamp obsOffset lookMinusX 100 ⟨4, 3, 0⟩ rampSecantEnd.tol = true ∧
    (intersectSurface envRamp obsOffset lookMinusX freshState).1 = Outcome.returned false ∧
    (intersectSurface envRamp obsOffset lookMinusX freshState).2.st.hasIntersection = false :=
  ⟨by decide!, by decide!,
    fixed_point_exhausted_returns_false envRamp obsOffset lookMinusX freshState ⟨4, 3, 0⟩
      rampSecantEnd (by decide!) (by decide!) (by decide!)⟩

/-- C6: scenario A.  With the observer `(5000, 0, 0)`, the look direction
`(-1, 0, 0)`, a DEM whose local radius is 3396 km at every latitude and
longitude, positive resolutions, a first sphere intersection that hits, a
`surfpt_c` that meets the sphere of radius 3396 km at `(3396, 0, 0)`, a `sqrt`
that is exact on squares and positive target radii, `intersectSurface` returns
true with the point `(3396, 0, 0)` stored, and `calculateSurfaceNormal` then
stores the normal `(1, 0, 0)`. -/
theorem scenario_A (env : Env) (st : ShapeState) (p0 : Vec3)
    (hdem : ∀ lat lon, localRadius env lat lon = some 3396)
    (hres : ∀ q, 0 < env.resolution q)
    (hinit : env.surfpt obsA lookMinusX (initialRadius env obsA st) (initialRadius env obsA st)
      (initialRadius env obsA st) = some p0)
    (hsurf : env.surfpt obsA lookMinusX 3396 3396 3396 = some ⟨3396, 0, 0⟩)
    (hsqrt : ∀ y, env.sqrt (y * y) = |y|)
    (hradii : 0 < env.targetRadii.1 ∧ 0 < env.targetRadii.2.1 ∧ 0 < env.targetRadii.2.2) :
    (intersectSurface env obsA lookMinusX st).1 = Outcome.returned true ∧
    (intersectSurface env obsA lookMinusX st).2.st.point = some ⟨3396, 0, 0⟩ ∧
    ∃ st2, calculateSurfaceNormal env (intersectSurface env obsA lookMinusX st).2.st =
        NormalResult.ok st2 ∧
      st2.normal = ⟨1, 0, 0⟩ ∧ st2.hasNormal = true ∧ st2.point = some ⟨3396, 0, 0⟩ := by
  obtain ⟨h1, h2, h3⟩ :=
    intersectSurface_flat env obsA lookMinusX st 3396 ⟨3396, 0, 0⟩ p0 hdem hinit hsurf hres
  refine ⟨h1, h2, ?_⟩
  have hn := surfnm_on_x_axis env env.targetRadii.1 env.targetRadii.2.1 env.targetRadii.2.2
    3396 hradii.1 hradii.2.1 hradii.2.2 (by norm_num) hsqrt
  simp only [calculateSurfaceNormal, calculateDefaultNormal, h2, h3, hn]
  exact ⟨_, rfl, rfl, rfl, rfl⟩

theorem scenario_A_witness :
    (intersectSurface envA obsA lookMinusX freshState).1 = Outcome.returned true ∧
    (intersectSurface envA obsA lookMinusX freshState).2.st.point = some ⟨3396, 0, 0⟩ ∧
    ∃ st2, calculateSurfaceNormal envA (intersectSurface envA obsA lookMinusX freshState).2.st =
        NormalResult.ok st2 ∧
      st2.normal = ⟨1, 0, 0⟩ ∧ st2.hasNormal = true ∧ st2.point = some ⟨3396, 0, 0⟩ :=
  scenario_A envA freshState ⟨3396, 0, 0⟩
    (fun _ _ => by simp [localRadius, envA, mkEnv]; norm_num)
    (fun _ => by show (0 : ℚ) < 1; norm_num) (by decide!) (by decide!) qsqrt_mul_self
    (by decide!)

/-- C11: when `localRadius` at the latitude and longitude of
`point = observer + t * direction` is a valid radius `R`, `demError` writes
`point` to its output array, returns `|point| - R`, sets `success` to true,
stores `point` as the surface intersection point and sets `hasIntersection` to
true. -/
theorem demError_valid (env : Env) (o d : Vec3) (t : ℚ) (run : Run) (R : ℚ)
    (h : localRadius env (latLon env (rayPoint o d t)).1 (latLon env (rayPoint o d t)).2 =
      some R) :
    (demError env o d t run).point = ⟨o.x + t * d.x, o.y + t * d.y, o.z + t * d.z⟩ ∧
    (demError env o d t run).value =
      env.sqrt ((o.x + t * d.x) * (o.x + t * d.x) + (o.y + t * d.y) * (o.y + t * d.y) +
        (o.z + t * d.z) * (o.z + t * d.z)) - R ∧
    (demError env o d t run).success = true ∧
    (demError env o d t run).run.st.point = some ⟨o.x + t * d.x, o.y + t * d.y, o.z + t * d.z⟩ ∧
    (demError env o d t run).run.st.hasIntersection = true := by
  have h1 : radiusAt env (rayPoint o d t) = some R := h
  have e : demError env o d t run =
      ⟨norm3 env (rayPoint o d t) - R, true, rayPoint o d t,
        ((run.record (Call.demError t)).setPoint (rayPoint o d t)).setHasIntersection true⟩ := by
    simp only [demError, h1]
  rw [e]
  exact ⟨rfl, rfl, rfl, rfl, rfl⟩

theorem demError_valid_witness :
    (demError envA obsA lookMinusX 1604 ⟨freshState, []⟩).point = ⟨5000 + 1604 * -1,
      0 + 1604 * 0, 0 + 1604 * 0⟩ ∧
    (demError envA obsA lookMinusX 1604 ⟨freshState, []⟩).value =
      envA.sqrt ((5000 + 1604 * -1) * (5000 + 1604 * -1) + (0 + 1604 * 0) * (0 + 1604 * 0) +
        (0 + 1604 * 0) * (0 + 1604 * 0)) - 3396 ∧
    (demError envA obsA lookMinusX 1604 ⟨freshState, []⟩).success = true ∧
    (demError envA obsA lookMinusX 1604 ⟨freshState, []⟩).run.st.point =
      some ⟨5000 + 1604 * -1, 0 + 1604 * 0, 0 + 1604 * 0⟩ ∧
    (demError envA obsA lookMinusX 1604 ⟨freshState, []⟩).run.st.hasIntersection = true :=
  demError_valid envA obsA lookMinusX 1604 ⟨freshState, []⟩ 3396 (by decide!)

/-- C12: when `localRadius` at the latitude and longitude of
`observer + t * direction` is invalid, `demError` sets `success` to false,
sets `hasIntersection` to false, returns -1 and leaves the stored surface
intersection point as it was before the call. -/
theorem demError_invalid (env : Env) (o d : Vec3) (t : ℚ) (run : Run)
    (h : localRadius env (latLon env (rayPoint o d t)).1 (latLon env (rayPoint o d t)).2 =
      none) :
    (demError env o d t run).success = false ∧
    (demError env o d t run).run.st.hasIntersection = false ∧
    (demError env o d t run).value = -1 ∧
    (demError env o d t run).run.st.point = run.st.point := by
  have h1 : radiusAt env (rayPoint o d t) = none := h
  have e : demError env o d t run =
      ⟨-1, false, rayPoint o d t,
        (run.record (Call.demError t)).setHasIntersection false⟩ := by
    simp only [demError, h1]
  rw [e]
  exact ⟨rfl, rfl, rfl, rfl⟩

theorem demError_invalid_witness :
    (demError envNoData obsA lookMinusX 1604 ⟨staleState, []⟩).success = false ∧
    (demError envNoData obsA lookMinusX 1604 ⟨staleState, []⟩).run.st.hasIntersection = false ∧
    (demError envNoData obsA lookMinusX 1604 ⟨staleState, []⟩).value = -1 ∧
    (demError envNoData obsA lookMinusX 1604 ⟨staleState, []⟩).run.st.point =
      (Run.mk staleState []).st.point :=
  demError_invalid envNoData obsA lookMinusX 1604 ⟨staleState, []⟩ (by decide!)

/-- C14: when no probed grid position holds a valid sample, the first call of
`findDemValue` returns `(a + b + c) / 3` for the target radii `a`, `b`, `c`,
and every later call, on the state left by the calls before it, returns that
same value and leaves the state as it is. -/
theorem findDemValue_fallback (env : Env) (st : ShapeState)
    (hfirst : st.demValueFound = false)
    (hnone : ∀ sl ∈ probePositions env, env.readPixel sl.1 sl.2 = none) :
    (findDemValue env st).1 =
      (env.targetRadii.1 + env.targetRadii.2.1 + env.targetRadii.2.2) / 3 ∧
    ∀ n : Nat,
      findDemValue env ((fun s => (findDemValue env s).2)^[n] (findDemValue env st).2) =
        ((env.targetRadii.1 + env.targetRadii.2.1 + env.targetRadii.2.2) / 3,
          (findDemValue env st).2) := by
  have hs : (probePositions env).findSome? (fun sl => env.readPixel sl.1 sl.2) = none :=
    List.findSome?_eq_none_iff.mpr hnone
  have h1 : (findDemValue env st).1 =
      (env.targetRadii.1 + env.targetRadii.2.1 + env.targetRadii.2.2) / 3 := by
    simp [findDemValue, hfirst, hs]
  refine ⟨h1, ?_⟩
  have hfix : findDemValue env (findDemValue env st).2 =
      ((env.targetRadii.1 + env.targetRadii.2.1 + env.targetRadii.2.2) / 3,
        (findDemValue env st).2) := by
    rw [findDemValue_cached env st _ rfl, h1]
  intro n
  induction n with
  | zero => exact hfix
  | succ n ih =>
    rw [Function.iterate_succ_apply]
    simp only [hfix]
    exact ih

theorem findDemValue_fallback_witness :
    (findDemValue envNoPixels freshState).1 = (339619 / 100 + 339619 / 100 + 33762 / 10) / 3 ∧
    ∀ n : Nat,
      findDemValue envNoPixels
          ((fun s => (findDemValue envNoPixels s).2)^[n] (findDemValue envNoPixels freshState).2) =
        ((339619 / 100 + 339619 / 100 + 33762 / 10) / 3,
          (findDemValue envNoPixels freshState).2) :=
  findDemValue_fallback envNoPixels freshState rfl (fun _ _ => rfl)

/-- C13 (counterexample): in a cube of 3 by 3 whose probed pixels are valid at
(sample 1, line 2) with 3396000 m and at (sample 2, line 1) with 3397000 m, the
first valid probe in raster scan order is the one of line 1, 3397000 m, but
the first call of `findDemValue` returns 3396 km, the pixel of sample 1. -/
theorem findDemValue_not_raster_scan_order :
    (probePositionsRasterScan envRaster).findSome?
      (fun sl => envRaster.readPixel sl.1 sl.2) = some 3397000 ∧
    (findDemValue envRaster freshState).1 = 3396 ∧
    (findDemValue envRaster freshState).1 ≠ 3397000 / 1000 := by
  decide!

/-- C13 (amended): on the first call, when the probed grid position
`(s, l)` holds the valid sample `v` and every probed position of a smaller
sample, or of the same sample and a smaller line, is special, `findDemValue`
returns `v / 1000` and caches it: the probes are ordered sample by sample, and
by increasing line within a sample. -/
theorem findDemValue_first_valid_sample_major (env : Env) (st : ShapeState) (s l : Int) (v : ℚ)
    (hfirst : st.demValueFound = false)
    (hmem : (s, l) ∈ probePositions env)
    (hv : env.readPixel s l = some v)
    (hmin : ∀ sl ∈ probePositions env, (sl.1 < s ∨ (sl.1 = s ∧ sl.2 < l)) →
      env.readPixel sl.1 sl.2 = none) :
    (findDemValue env st).1 = v / 1000 ∧
    (findDemValue env st).2.demValue = v / 1000 ∧
    (findDemValue env st).2.demValueFound = true := by
  have hs : (probePositions env).findSome? (fun sl => env.readPixel sl.1 sl.2) = some v :=
    findSome?_of_first (fun a b => a.1 < b.1 ∨ (a.1 = b.1 ∧ a.2 < b.2))
      (fun sl => env.readPixel sl.1 sl.2) (probePositions env) (s, l) v
      (probePositions_sorted env) hmem hv hmin
  simp [findDemValue, hfirst, hs]

theorem findDemValue_first_valid_sample_major_witness :
    (findDemValue envRaster freshState).1 = 3396000 / 1000 ∧
    (findDemValue envRaster freshState).2.demValue = 3396000 / 1000 ∧
    (findDemValue envRaster freshState).2.demValueFound = true :=
  findDemValue_first_valid_sample_major envRaster freshState 1 2 3396000 rfl (by decide!)
    (by decide!) (by decide!)

/-- C16: normal orientation.  For every four neighbor points and every stored
intersection point `p`, `calculateLocalNormal` returns, the normal `n` it
stores satisfies `dot(n, normalize(p)) >= 0`, and `hasNormal` is true exactly
when the magnitude computed for the unit cross product is not zero. -/
theorem calculateLocalNormal_outward (env : Env) (st : ShapeState) (p top bottom left right : Vec3)
    (hp : st.point = some p) :
    ∃ st1, calculateLocalNormal env [top, bottom, left, right] st = LocalNormalResult.ok st1 ∧
      0 ≤ vdot st1.normal (unorm env p).1 ∧
      (st1.hasNormal = true ↔
        (unorm env (ucrss env (vsub top bottom) (vsub right left))).2 ≠ 0) := by
  generalize hu : unorm env (ucrss env (vsub top bottom) (vsub right left)) = u
  have hcalc : calculateLocalNormal env [top, bottom, left, right] st =
      if u.2 = 0 then LocalNormalResult.ok { st with normal := vzero, hasNormal := false }
      else LocalNormalResult.ok
        { st with
          hasNormal := true
          normal := if vdot u.1 (unorm env p).1 < 0 then vminus u.1 else u.1 } := by
    simp [calculateLocalNormal, hu, hp]
  rw [hcalc]
  by_cases hmag : u.2 = 0
  · refine ⟨_, if_pos hmag, ?_, ?_⟩
    · simp [vdot_vzero_left]
    · simp [hmag]
  · refine ⟨_, if_neg hmag, ?_, ?_⟩
    · by_cases hd : vdot u.1 (unorm env p).1 < 0
      · simp only [hd, if_true, vdot_vminus_left]
        linarith
      · simp only [hd, if_false]
        exact not_lt.mp hd
    · simp [hmag]

theorem calculateLocalNormal_outward_witness :
    ∃ st1, calculateLocalNormal envA [⟨3396, 0, 1⟩, ⟨3396, 0, -1⟩, ⟨3396, -1, 0⟩, ⟨3396, 1, 0⟩]
        staleState = LocalNormalResult.ok st1 ∧
      0 ≤ vdot st1.normal (unorm envA ⟨3396, 0, 0⟩).1 ∧
      (st1.hasNormal = true ↔
        (unorm envA (ucrss envA (vsub ⟨3396, 0, 1⟩ ⟨3396, 0, -1⟩)
          (vsub ⟨3396, 1, 0⟩ ⟨3396, -1, 0⟩))).2 ≠ 0) :=
  calculateLocalNormal_outward envA staleState ⟨3396, 0, 0⟩ ⟨3396, 0, 1⟩ ⟨3396, 0, -1⟩
    ⟨3396, -1, 0⟩ ⟨3396, 1, 0⟩ rfl

/-- C17: when the neighbor list is empty, or the cross product of
`top - bottom` and `right - left` is the zero vector, `calculateLocalNormal`
stores the zero vector as the normal, sets `hasNormal` to false and changes
nothing else: the intersection point and `hasIntersection` stay as they
were. -/
theorem calculateLocalNormal_degenerate (env : Env) (st : ShapeState) (nb : List Vec3)
    (h : nb = [] ∨ ∃ top bottom left right rest, nb = top :: bottom :: left :: right :: rest ∧
      vcrss (vsub top bottom) (vsub right left) = vzero) :
    calculateLocalNormal env nb st =
      LocalNormalResult.ok { st with normal := vzero, hasNormal := false } ∧
    ({ st with normal := vzero, hasNormal := false } : ShapeState).point = st.point ∧
    ({ st with normal := vzero, hasNormal := false } : ShapeState).hasIntersection =
      st.hasIntersection := by
  refine ⟨?_, rfl, rfl⟩
  rcases h with rfl | ⟨top, bottom, left, right, rest, rfl, hc⟩
  · rfl
  · simp [calculateLocalNormal, ucrss_of_vcrss_zero env _ _ hc, unorm_vzero]

theorem calculateLocalNormal_degenerate_witness :
    calculateLocalNormal envA neighborsLine staleState =
      LocalNormalResult.ok { staleState with normal := vzero, hasNormal := false } ∧
    ({ staleState with normal := vzero, hasNormal := false } : ShapeState).point =
      staleState.point ∧
    ({ staleState with normal := vzero, hasNormal := false } : ShapeState).hasIntersection =
      staleState.hasIntersection :=
  calculateLocalNormal_degenerate envA staleState neighborsLine
    (Or.inr ⟨⟨3396, 0, 1⟩, ⟨3396, 0, -1⟩, ⟨3396, 0, -2⟩, ⟨3396, 0, 2⟩, [], rfl, by decide!⟩)

/-- C18 (the code departs from the claim): given one, two or three neighbor
points, `calculateLocalNormal` does not mark the normal invalid; it reads
`neighborPoints[1]` or `neighborPoints[3]`, beyond the end of the list.  Only
the empty list is guarded. -/
theorem calculateLocalNormal_reads_beyond_short_list :
    calculateLocalNormal envA [⟨3396, 0, 1⟩] staleState = LocalNormalResult.outOfRange ∧
    calculateLocalNormal envA [⟨3396, 0, 1⟩, ⟨3396, 0, -1⟩] staleState =
      LocalNormalResult.outOfRange ∧
    calculateLocalNormal envA [⟨3396, 0, 1⟩, ⟨3396, 0, -1⟩, ⟨3396, -1, 0⟩] staleState =
      LocalNormalResult.outOfRange :=
  ⟨rfl, rfl, rfl⟩

/-- C19 (counterexample): with a valid stored point, `hasIntersection` true
and target radii of 0 km, `calculateSurfaceNormal` neither raises the
Programmer exception nor stores a normal: `surfnm_c` signals an error and the
check that follows it throws, with the state unchanged. -/
theorem calculateSurfaceNormal_naif_error :
    staleState.point = some ⟨3396, 0, 0⟩ ∧ staleState.hasIntersection = true ∧
    calculateSurfaceNormal envZeroRadii staleState = NormalResult.naifError staleState := by
  decide!

/-- C19 (amended): `calculateSurfaceNormal` raises the Programmer exception
if and only if the stored surface point is not valid or `hasIntersection` is
false, and then the state is unchanged; otherwise, when the three target radii
`a`, `b`, `c` are positive, it stores the ellipsoid normal at the stored point
`p`, the unit vector along `(p.x / a^2, p.y / b^2, p.z / c^2)` computed as
`surfnm_c` does, and sets `hasNormal` to true. -/
theorem calculateSurfaceNormal_spec (env : Env) (st : ShapeState) :
    ((∃ s, calculateSurfaceNormal env st = NormalResult.programmerError s) ↔
      (st.point = none ∨ st.hasIntersection = false)) ∧
    (∀ s, calculateSurfaceNormal env st = NormalResult.programmerError s → s = st) ∧
    (∀ p, st.point = some p → st.hasIntersection = true →
      0 < env.targetRadii.1 → 0 < env.targetRadii.2.1 → 0 < env.targetRadii.2.2 →
      calculateSurfaceNormal env st = NormalResult.ok
        { st with
          normal := vhat env
            ⟨p.x * (min env.targetRadii.1 (min env.targetRadii.2.1 env.targetRadii.2.2) /
                env.targetRadii.1 *
              (min env.targetRadii.1 (min env.targetRadii.2.1 env.targetRadii.2.2) /
                env.targetRadii.1)),
             p.y * (min env.targetRadii.1 (min env.targetRadii.2.1 env.targetRadii.2.2) /
                env.targetRadii.2.1 *
              (min env.targetRadii.1 (min env.targetRadii.2.1 env.targetRadii.2.2) /
                env.targetRadii.2.1)),
             p.z * (min env.targetRadii.1 (min env.targetRadii.2.1 env.targetRadii.2.2) /
                env.targetRadii.2.2 *
              (min env.targetRadii.1 (min env.targetRadii.2.1 env.targetRadii.2.2) /
                env.targetRadii.2.2))⟩
          hasNormal := true }) := by
  refine ⟨?_, ?_, ?_⟩
  · cases hp : st.point with
    | none => simp [calculateSurfaceNormal, calculateDefaultNormal, hp]
    | some p =>
      cases hh : st.hasIntersection with
      | false => simp [calculateSurfaceNormal, calculateDefaultNormal, hp, hh]
      | true =>
        simp only [calculateSurfaceNormal, calculateDefaultNormal, hp, hh]
        cases surfnm env env.targetRadii.1 env.targetRadii.2.1 env.targetRadii.2.2 p <;> simp
  · intro s hs
    cases hp : st.point with
    | none =>
      simp only [calculateSurfaceNormal, calculateDefaultNormal, hp] at hs
      cases hs
      rfl
    | some p =>
      cases hh : st.hasIntersection with
      | false =>
        simp only [calculateSurfaceNormal, calculateDefaultNormal, hp, hh] at hs
        cases hs
        rfl
      | true =>
        simp only [calculateSurfaceNormal, calculateDefaultNormal, hp, hh] at hs
        cases hn : surfnm env env.targetRadii.1 env.targetRadii.2.1 env.targetRadii.2.2 p <;>
          simp [hn] at hs
  · intro p hp hh ha hb hc
    have hcond : ¬ (env.targetRadii.1 ≤ 0 ∨ env.targetRadii.2.1 ≤ 0 ∨ env.targetRadii.2.2 ≤ 0) := by
      rintro (h | h | h)
      · exact absurd ha (not_lt.mpr h)
      · exact absurd hb (not_lt.mpr h)
      · exact absurd hc (not_lt.mpr h)
    simp only [calculateSurfaceNormal, calculateDefaultNormal, hp, hh, surfnm, hcond, if_false,
      Bool.not_true, Bool.false_eq_true]

/-- C20: in every iteration of the secant loop that `intersectSurface`
executes, with window `v` and state `r` on entry, `v.f1` is the error at the
candidate point `q = observer + t1 * direction`, and the iteration declares
convergence if and only if `|f1| * 1000 < tol` for the tolerance held on entry
and `|f1| * 1000 < resolution(q) / 100`; it then leaves the loop before any
update, with `q` stored as the intersection point and `hasIntersection`
true. -/
theorem secant_convergence_test (env : Env) (o d p : Vec3) (run : Run) (v : SecantVars) (r : Run)
    (hmem : (v, r) ∈ secantIterations env o d p run) :
    (∃ R, radiusAt env (rayPoint o d v.t1) = some R ∧
      v.f1 = norm3 env (rayPoint o d v.t1) - R) ∧
    ((∃ s, secantStep env o d v r = Sum.inl s ∧ s.converged = true) ↔
      (|v.f1| * 1000 < v.tol ∧ |v.f1| * 1000 < env.resolution (rayPoint o d v.t1) / 100)) ∧
    ∀ s, secantStep env o d v r = Sum.inl s → s.converged = true →
      s.run.st.point = some (rayPoint o d v.t1) ∧ s.run.st.hasIntersection = true ∧
        s.run.log = r.log := by
  have hc : v.Consistent env o d := by
    unfold secantIterations at hmem
    cases hi : secantInit env o d p run with
    | inl r0 => simp [hi] at hmem
    | inr vr =>
      obtain ⟨v0, r0⟩ := vr
      simp only [hi] at hmem
      exact secantTrace_consistent env o d 100 v0 r0
        (secantInit_consistent env o d p run v0 r0 hi) (v, r) hmem
  obtain ⟨hpt, hf⟩ := hc
  have h := secantStep_converged env o d v r
  rw [hpt] at h
  exact ⟨hf, h.1, h.2⟩

theorem secant_convergence_test_witness :
    (|scenarioASecondIteration.1.f1| * 1000 < scenarioASecondIteration.1.tol ∧
      |scenarioASecondIteration.1.f1| * 1000 <
        envA.resolution (rayPoint obsA lookMinusX scenarioASecondIteration.1.t1) / 100) ∧
    ∃ s, secantStep envA obsA lookMinusX scenarioASecondIteration.1
        scenarioASecondIteration.2 = Sum.inl s ∧ s.converged = true :=
  ⟨by decide!,
    (secant_convergence_test envA obsA lookMinusX ⟨3396, 0, 0⟩
      ⟨(findDemValue envA freshState).2, [Call.initSurfpt 3396]⟩
      scenarioASecondIteration.1 scenarioASecondIteration.2 (by decide!)).2.1.mpr (by decide!)⟩

theorem calculateSurfaceNormal_spec_witness :
    ∃ st1, calculateSurfaceNormal envA staleState = NormalResult.ok st1 ∧
      st1.hasNormal = true ∧ st1.normal = ⟨1, 0, 0⟩ :=
  ⟨_, (calculateSurfaceNormal_spec envA staleState).2.2 ⟨3396, 0, 0⟩ rfl rfl
    (by decide!) (by decide!) (by decide!), rfl, by decide!⟩

/-- C24 (counterexample): for the DEM of 5 km everywhere and target radii of
4 km, the secant stage converges and leaves the last point it evaluated,
within a millimeter of `(4, 3, 0)`, as the stored point; yet the first
fixed-point iteration looks up the latitude and longitude of the first sphere
intersection `flatFirstPoint`, a different longitude. -/
theorem fixed_point_not_seeded_by_secant :
    envFlat.surfpt obsOffset lookMinusX (initialRadius envFlat obsOffset freshState)
      (initialRadius envFlat obsOffset freshState)
      (initialRadius envFlat obsOffset freshState) = some flatFirstPoint ∧
    flatSecantEnd.converged = true ∧
    flatSecantEnd.run.st.point.map (fun q => decide (|q.x - 4| < 1 / 1000000)) = some true ∧
    flatSecantEnd.run.st.point.map
      (fun q => decide ((latLon envFlat q).2 = (latLon envFlat flatFirstPoint).2)) = some false ∧
    ((intersectSurface envFlat obsOffset lookMinusX freshState).2.log.filter
      Call.isFixedLookup).head? =
      some (Call.fixedLookup (latLon envFlat flatFirstPoint).1 (latLon envFlat flatFirstPoint).2) := by
  decide!

/-- C24 (amended): whenever the secant stage ends and the fixed-point stage
starts, the first fixed-point iteration derives its latitude and longitude
from the first sphere intersection point `p` (the array `newIntersectPt`),
whatever point the secant stage left in the state. -/
theorem fixed_point_seeded_by_first_sphere_point (env : Env) (o d : Vec3) (st : ShapeState)
    (p : Vec3) (s : SecantEnd)
    (hp : env.surfpt o d (initialRadius env o st) (initialRadius env o st)
      (initialRadius env o st) = some p)
    (hs : secantStage env o d p
      ⟨(findDemValue env st).2, [Call.initSurfpt (initialRadius env o st)]⟩ = Sum.inr s) :
    ((intersectSurface env o d st).2.log.filter Call.isFixedLookup).head? =
      some (Call.fixedLookup (latLon env p).1 (latLon env p).2) := by
  have e : intersectSurface env o d st = fixedLoop env o d 100 p s.tol s.run := by
    simp only [intersectSurface, hp, hs]
  obtain ⟨l, hl⟩ := fixedLoop_first_lookup env o d 99 p s.tol s.run
  rw [e, hl, List.filter_append, secantStage_inr_no_lookup env o d p _ _ s hs]
  simp [List.filter_cons, Call.isFixedLookup]

theorem fixed_point_seeded_by_first_sphere_point_witness :
    ((intersectSurface envFlat obsOffset lookMinusX freshState).2.log.filter
      Call.isFixedLookup).head? =
      some (Call.fixedLookup (latLon envFlat flatFirstPoint).1
        (latLon envFlat flatFirstPoint).2) :=
  fixed_point_seeded_by_first_sphere_point envFlat obsOffset lookMinusX freshState
    flatFirstPoint flatSecantEnd (by decide!) (by decide!)

/-- C25: for every input that reaches the fixed-point stage (the first sphere
intersection hits at `p` and the secant stage ends with `s`),
`intersectSurface` returns true if and only if one of the at most 100
fixed-point iterations it executes, entered at the previous point `cur` with
tolerance `tol`, looks up a radius `r`, re-intersects at a new point `q` and
finds the squared displacement from `cur` to `q`, in square meters, below
`tol^2` and below `(resolution(q) / 100)^2`; when it returns true the stored
point is that `q` and `hasIntersection` is true. -/
theorem fixed_point_stage_result (env : Env) (o d : Vec3) (st : ShapeState)
    (p : Vec3) (s : SecantEnd)
    (hp : env.surfpt o d (initialRadius env o st) (initialRadius env o st)
      (initialRadius env o st) = some p)
    (hs : secantStage env o d p
      ⟨(findDemValue env st).2, [Call.initSurfpt (initialRadius env o st)]⟩ = Sum.inr s) :
    (fixedTrace env o d 100 p s.tol s.run).length ≤ 100 ∧
    ((intersectSurface env o d st).1 = Outcome.returned true ↔
      ∃ e ∈ fixedTrace env o d 100 p s.tol s.run, ∃ r q,
        radiusAt env e.1 = some r ∧ env.surfpt o d r r r = some q ∧
        dist2 e.1 q < e.2.1 * e.2.1 ∧
        dist2 e.1 q < env.resolution q / 100 * (env.resolution q / 100)) ∧
    ((intersectSurface env o d st).1 = Outcome.returned true →
      ∃ e ∈ fixedTrace env o d 100 p s.tol s.run, ∃ r q,
        (radiusAt env e.1 = some r ∧ env.surfpt o d r r r = some q ∧
          dist2 e.1 q < e.2.1 * e.2.1 ∧
          dist2 e.1 q < env.resolution q / 100 * (env.resolution q / 100)) ∧
        (intersectSurface env o d st).2.st.point = some q ∧
        (intersectSurface env o d st).2.st.hasIntersection = true) := by
  have e : intersectSurface env o d st = fixedLoop env o d 100 p s.tol s.run := by
    simp only [intersectSurface, hp, hs]
  rw [e]
  exact ⟨fixedTrace_length env o d 100 p s.tol s.run,
    (fixedLoop_true env o d 100 p s.tol s.run).1, (fixedLoop_true env o d 100 p s.tol s.run).2⟩

theorem fixed_point_stage_result_witness :
    (intersectSurface envFlat obsOffset lookMinusX freshState).1 = Outcome.returned true ∧
    ∃ e ∈ fixedTrace envFlat obsOffset lookMinusX 100 flatFirstPoint flatSecantEnd.tol
        flatSecantEnd.run, ∃ r q,
      (radiusAt envFlat e.1 = some r ∧ envFlat.surfpt obsOffset lookMinusX r r r = some q ∧
        dist2 e.1 q < e.2.1 * e.2.1 ∧
        dist2 e.1 q < envFlat.resolution q / 100 * (envFlat.resolution q / 100)) ∧
      (intersectSurface envFlat obsOffset lookMinusX freshState).2.st.point = some q ∧
      (intersectSurface envFlat obsOffset lookMinusX freshState).2.st.hasIntersection = true :=
  ⟨by decide!,
    (fixed_point_stage_result envFlat obsOffset lookMinusX freshState flatFirstPoint
      flatSecantEnd (by decide!) (by decide!)).2.2 (by decide!)⟩

/-- C21 (counterexample): in scenario A seen with a resolution that grows with
the distance from the observer, the first secant iteration compares its error,
0.1 m, against the tolerance computed at the first sphere intersection,
0.1 m, and goes on, although the error is below `resolution / 100` at the
candidate point of that iteration. -/
theorem secant_first_test_uses_entry_tolerance :
    staleFirstIteration ∈ secantIterations envStale obsA lookMinusX ⟨3396, 0, 0⟩
      ⟨(findDemValue envStale freshState).2, [Call.initSurfpt 3396]⟩ ∧
    staleFirstIteration.1.tol = envStale.resolution ⟨3396, 0, 0⟩ / 100 ∧
    envStale.resolution ⟨3396, 0, 0⟩ / 100 ≠
      envStale.resolution (rayPoint obsA lookMinusX staleFirstIteration.1.t1) / 100 ∧
    |staleFirstIteration.1.f1| * 1000 <
      envStale.resolution (rayPoint obsA lookMinusX staleFirstIteration.1.t1) / 100 ∧
    ¬ (|staleFirstIteration.1.f1| * 1000 < staleFirstIteration.1.tol) ∧
    secantStep envStale obsA lookMinusX staleFirstIteration.1 staleFirstIteration.2 =
      Sum.inr staleSecondIteration := by
  decide!

/-- C21 (amended): every secant iteration first compares its error with the
tolerance held on entry; only when that test passes is the tolerance
recomputed as `resolution / 100` at the candidate point of the iteration, and
convergence is declared only against the recomputed value; the iteration that
goes on carries the recomputed tolerance when the first test passed and the
tolerance held on entry otherwise.  The same holds for a fixed-point iteration
with the squared displacement and the new point. -/
theorem tolerance_recomputed_after_first_test (env : Env) (o d p : Vec3) (run : Run)
    (v : SecantVars) (r : Run) (hmem : (v, r) ∈ secantIterations env o d p run)
    (cur : Vec3) (tol : ℚ) (r0 : Run) :
    (∀ s, secantStep env o d v r = Sum.inl s → s.converged = true →
      s.tol = env.resolution (rayPoint o d v.t1) / 100 ∧ |v.f1| * 1000 < v.tol ∧
        |v.f1| * 1000 < s.tol) ∧
    (∀ v1 r1, secantStep env o d v r = Sum.inr (v1, r1) →
      v1.tol = if |v.f1| * 1000 < v.tol then env.resolution (rayPoint o d v.t1) / 100
        else v.tol) ∧
    (∀ r1, fixedStep env o d cur tol r0 = Sum.inl (Outcome.returned true, r1) →
      ∃ rad q, radiusAt env cur = some rad ∧ env.surfpt o d rad rad rad = some q ∧
        dist2 cur q < tol * tol ∧
        dist2 cur q < env.resolution q / 100 * (env.resolution q / 100)) ∧
    (∀ q tol1 r1, fixedStep env o d cur tol r0 = Sum.inr (q, tol1, r1) →
      tol1 = if dist2 cur q < tol * tol then env.resolution q / 100 else tol) := by
  have hpt : v.point = rayPoint o d v.t1 := (secantIterations_consistent env o d p run v r hmem).1
  refine ⟨?_, ?_, ?_, ?_⟩
  · intro s hs hcv
    simp only [secantStep] at hs
    split at hs
    · rename_i hconv
      cases hs
      have h := (secantTest_converged env v r).mp hconv
      have ht := secantTest_tol env v r
      rw [if_pos h.1, hpt] at ht
      rw [ht, ← hpt]
      exact ⟨rfl, h.1, h.2⟩
    · split at hs
      · cases hs; cases hcv
      · split at hs
        · cases hs
        · cases hs; cases hcv
  · intro v1 r1 hs
    obtain ⟨_, _, _, _, _, ht, _⟩ := secantStep_inr env o d v r v1 r1 hs
    rw [ht, secantTest_tol, hpt]
  · intro r1 hs
    obtain ⟨_, rad, q, ha, _⟩ := fixedStep_inl_returned env o d cur tol r0 r1 true hs
    exact ⟨rad, q, ha⟩
  · intro q tol1 r1 hs
    simp only [fixedStep] at hs
    split at hs
    · cases hs
    · split at hs
      · cases hs
      · split at hs
        · rename_i h3
          split at hs
          · cases hs
          · cases hs
            rw [if_pos h3]
        · rename_i h3
          cases hs
          rw [if_neg h3]

theorem tolerance_recomputed_after_first_test_witness :
    staleSecondIteration.1.tol =
      if |staleFirstIteration.1.f1| * 1000 < staleFirstIteration.1.tol then
        envStale.resolution (rayPoint obsA lookMinusX staleFirstIteration.1.t1) / 100
      else staleFirstIteration.1.tol :=
  (tolerance_recomputed_after_first_test envStale obsA lookMinusX ⟨3396, 0, 0⟩
    ⟨(findDemValue envStale freshState).2, [Call.initSurfpt 3396]⟩
    staleFirstIteration.1 staleFirstIteration.2 (by decide!) vzero 0 ⟨freshState, []⟩).2.1
    staleSecondIteration.1 staleSecondIteration.2 (by decide!)

/-- C22: the first window of the secant loop is
`(t0, error(t0), t0 + 0.0001, error(t0 + 0.0001))` with `t0` the ray parameter
of the first sphere intersection, and every iteration that neither converges
nor stagnates and whose evaluation at `t2 = t1 - f1 * (t1 - t0) / (f1 - f0)`
succeeds maps the window `(t0, f0, t1, f1)` to `(t1, f1, t2, error(t2))`. -/
theorem secant_window_shift (env : Env) (o d p : Vec3) (run : Run) (v : SecantVars) (r : Run)
    (R : ℚ)
    (hc : (secantTest env v r).converged = false)
    (hst : ¬ (v.f1 = v.f0 ∧ |v.f1| * 1000 ≥ (secantTest env v r).tol))
    (heval : radiusAt env (rayPoint o d (v.t1 - v.f1 * (v.t1 - v.t0) / (v.f1 - v.f0))) = some R) :
    (∀ v0 r0, secantInit env o d p run = Sum.inr (v0, r0) →
      (secantIterations env o d p run).head? = some (v0, r0) ∧
      v0.t0 = rayParameter o d p ∧ v0.t1 = rayParameter o d p + 1 / 10000 ∧
      (∃ R0, radiusAt env (rayPoint o d v0.t0) = some R0 ∧
        v0.f0 = norm3 env (rayPoint o d v0.t0) - R0) ∧
      (∃ R1, radiusAt env (rayPoint o d v0.t1) = some R1 ∧
        v0.f1 = norm3 env (rayPoint o d v0.t1) - R1)) ∧
    ∃ v1 r1, secantStep env o d v r = Sum.inr (v1, r1) ∧
      v1.t0 = v.t1 ∧ v1.f0 = v.f1 ∧
      v1.t1 = v.t1 - v.f1 * (v.t1 - v.t0) / (v.f1 - v.f0) ∧
      v1.f1 = norm3 env (rayPoint o d v1.t1) - R := by
  constructor
  · intro v0 r0 hi
    obtain ⟨a1, a2, _, a4, a5⟩ := secantInit_window env o d p run v0 r0 hi
    refine ⟨?_, a1, a2, a4, a5⟩
    have hh : ∀ n, (secantTrace env o d (n + 1) v0 r0).head? = some (v0, r0) := fun n => rfl
    simp only [secantIterations, hi]
    exact hh 99
  · have hR : radiusAt env (rayPoint o d (secantUpdate v)) = some R := heval
    obtain ⟨hsucc, hval, _⟩ := demError_value env o d (secantUpdate v) (secantTest env v r).run R hR
    exact ⟨_, _, secantStep_continues env o d v r hc hst hsucc, rfl, rfl, rfl, hval⟩

theorem secant_window_shift_witness :
    ∃ v1 r1, secantStep envA obsA lookMinusX scenarioAFirstIteration.1
        scenarioAFirstIteration.2 = Sum.inr (v1, r1) ∧
      v1.t0 = scenarioAFirstIteration.1.t1 ∧ v1.f0 = scenarioAFirstIteration.1.f1 ∧
      v1.t1 = scenarioAFirstIteration.1.t1 - scenarioAFirstIteration.1.f1 *
        (scenarioAFirstIteration.1.t1 - scenarioAFirstIteration.1.t0) /
        (scenarioAFirstIteration.1.f1 - scenarioAFirstIteration.1.f0) ∧
      v1.f1 = norm3 envA (rayPoint obsA lookMinusX v1.t1) - 3396 :=
  (secant_window_shift envA obsA lookMinusX ⟨3396, 0, 0⟩
    ⟨(findDemValue envA freshState).2, [Call.initSurfpt 3396]⟩
    scenarioAFirstIteration.1 scenarioAFirstIteration.2 3396
    (by decide!) (by decide!) (by decide!)).2

/-- C23: the secant update never divides by zero.  In every iteration whose
window has `f1 = f0` the loop ends in that iteration, as converged or as
stagnant, without evaluating the error function, also when the tolerance was
recomputed in that iteration; whenever the update is computed (the iteration
goes on, or it ends on a failed evaluation), `f1 - f0` is not zero. -/
theorem secant_update_divisor_nonzero (env : Env) (o d : Vec3) (v : SecantVars) (r : Run) :
    (v.f1 = v.f0 → ∃ s, secantStep env o d v r = Sum.inl s ∧ s.run.log = r.log) ∧
    (∀ v1 r1, secantStep env o d v r = Sum.inr (v1, r1) → v.f1 - v.f0 ≠ 0) ∧
    (∀ s, secantStep env o d v r = Sum.inl s → s.run.log ≠ r.log → v.f1 - v.f0 ≠ 0) := by
  refine ⟨secantStep_equal_errors env o d v r, ?_, ?_⟩
  · intro v1 r1 hs hz
    obtain ⟨s, e, _⟩ := secantStep_equal_errors env o d v r (sub_eq_zero.mp hz)
    rw [e] at hs
    cases hs
  · intro s hs hlog hz
    obtain ⟨s1, e, hl⟩ := secantStep_equal_errors env o d v r (sub_eq_zero.mp hz)
    rw [e] at hs
    cases hs
    exact hlog hl

theorem secant_update_divisor_nonzero_witness :
    tangentFirstIteration.1.f1 = tangentFirstIteration.1.f0 ∧
    ∃ s, secantStep envTangent obsTangent lookPlusY tangentFirstIteration.1
        tangentFirstIteration.2 = Sum.inl s ∧ s.run.log = tangentFirstIteration.2.log :=
  ⟨by decide!,
    (secant_update_divisor_nonzero envTangent obsTangent lookPlusY tangentFirstIteration.1
      tangentFirstIteration.2).1 (by decide!)⟩

/-- C26: for a non-zero direction `d` the divisor `d . d` is non-zero, the
initial ray parameter is `((p - o) . d) / (d . d)`, the difference between
`p` and the ray point at that parameter is orthogonal to `d`, the parameter of
`o + s * d` is `s`, and in `intersectSurface` the first error evaluation after
the sphere intersection at `p` is made at this parameter. -/
theorem initial_ray_parameter_projection (o d p : Vec3) (hd : d ≠ vzero) :
    vdot d d ≠ 0 ∧
    rayParameter o d p = vdot (vsub p o) d / vdot d d ∧
    vdot (vsub p (rayPoint o d (rayParameter o d p))) d = 0 ∧
    (∀ s : ℚ, rayParameter o d (rayPoint o d s) = s) ∧
    (∀ (env : Env) (st : ShapeState),
      env.surfpt o d (initialRadius env o st) (initialRadius env o st)
        (initialRadius env o st) = some p →
      ∃ l : List Call, (intersectSurface env o d st).2.log =
        Call.initSurfpt (initialRadius env o st) ::
          Call.demError (rayParameter o d p) :: l) := by
  have hne := vdot_self_ne_zero d hd
  have hne2 : d.x * d.x + d.y * d.y + d.z * d.z ≠ 0 := hne
  refine ⟨hne, rfl, ?_, ?_, ?_⟩
  · simp only [vdot, vsub, rayPoint, rayParameter]
    field_simp
    ring
  · intro s
    simp only [rayPoint, rayParameter]
    field_simp
    ring
  · intro env st hp
    exact intersectSurface_first_call env o d p st hp

theorem initial_ray_parameter_projection_witness :
    lookMinusX ≠ vzero ∧ rayParameter obsA lookMinusX ⟨3396, 0, 0⟩ =
      vdot (vsub ⟨3396, 0, 0⟩ obsA) lookMinusX / vdot lookMinusX lookMinusX :=
  ⟨by decide, (initial_ray_parameter_projection obsA lookMinusX ⟨3396, 0, 0⟩ (by decide)).2.1⟩


/-- C29: for a raster of at least 6 samples and 6 lines, each of the two loops
of `findDemValue` takes at least 5 and at most 10 values, the probed positions
are the pairs of these values, and every probed position `(s, l)` satisfies
`spacing ≤ s ≤ numSamples - spacing` and `spacing ≤ l ≤ numLines - spacing`
with `spacing = max (dimension / 6) 1`, hence `1 ≤ s ≤ numSamples - 1` and
`1 ≤ l ≤ numLines - 1`. -/
theorem probe_grid_interior (env : Env) (hs : 6 ≤ env.sampleCount) (hl : 6 ≤ env.lineCount) :
    (5 ≤ (probeAxis env.sampleCount (max (env.sampleCount / 6) 1)).length ∧
      (probeAxis env.sampleCount (max (env.sampleCount / 6) 1)).length ≤ 10) ∧
    (5 ≤ (probeAxis env.lineCount (max (env.lineCount / 6) 1)).length ∧
      (probeAxis env.lineCount (max (env.lineCount / 6) 1)).length ≤ 10) ∧
    (∀ s l : Int, (s, l) ∈ probePositions env ↔
      s ∈ probeAxis env.sampleCount (max (env.sampleCount / 6) 1) ∧
      l ∈ probeAxis env.lineCount (max (env.lineCount / 6) 1)) ∧
    (∀ s l : Int, (s, l) ∈ probePositions env →
      (max (env.sampleCount / 6) 1 ≤ s ∧ s ≤ env.sampleCount - max (env.sampleCount / 6) 1 ∧
        1 ≤ s ∧ s ≤ env.sampleCount - 1) ∧
      (max (env.lineCount / 6) 1 ≤ l ∧ l ≤ env.lineCount - max (env.lineCount / 6) 1 ∧
        1 ≤ l ∧ l ≤ env.lineCount - 1)) := by
  obtain ⟨es, hs0, hs6, hs12⟩ := probe_spacing env.sampleCount hs
  obtain ⟨el, hl0, hl6, hl12⟩ := probe_spacing env.lineCount hl
  rw [es, el]
  refine ⟨probeAxis_length _ _ hs0 hs6 hs12, probeAxis_length _ _ hl0 hl6 hl12, ?_, ?_⟩
  · intro s l
    have h := probePositions_mem env s l
    rw [es, el] at h
    exact h
  · intro s l hmem
    have h := (probePositions_mem env s l).mp hmem
    rw [es, el] at h
    obtain ⟨a1, a2⟩ := probeAxis_bounds _ _ s hs0 h.1
    obtain ⟨b1, b2⟩ := probeAxis_bounds _ _ l hl0 h.2
    exact ⟨⟨a1, a2, by omega, by omega⟩, ⟨b1, b2, by omega, by omega⟩⟩

theorem probe_grid_interior_witness :
    (6 ≤ envNoPixels.sampleCount ∧ 6 ≤ envNoPixels.lineCount) ∧
    (5 ≤ (probeAxis envNoPixels.sampleCount (max (envNoPixels.sampleCount / 6) 1)).length ∧
      (probeAxis envNoPixels.sampleCount (max (envNoPixels.sampleCount / 6) 1)).length ≤ 10) :=
  ⟨⟨by decide, by decide⟩, (probe_grid_interior envNoPixels (by decide) (by decide)).1⟩


end DemShape
